import Mathlib

/-!
screenshot-go: option encoding and query building.

A shallow embedding of `options.go`, `models.go` and `screenshotapi.go`.

* A Go `url.Values` (`map[string][]string`) is an association list; `opt(v)`, which
  mutates the map and returns an `error`, becomes a function from the map to the
  pair of the map afterwards and the error (`none` for `nil`).
* Go `int` arguments are integers; every check of the source compares them with
  constants far inside the 64-bit range, so no wrap-around is involved.
* `strings.ToUpper` / `strings.ToLower` use the Unicode tables of Go's standard
  library; the embedding is parametric in them (`Strings`).
* `client.go` is not among the sources: the transport, the JSON decoder and the
  filesystem are parameters (`Client`, `Runtime`), and what a call does to them is
  recorded in a `World`.
-/

namespace screenshotapi

/-! ## Standard library: `strings`, `fmt`, `strconv` -/

/-- The two case mappings of Go's package `strings` that the options call. -/
structure Strings where
  /-- The function `strings.ToUpper`. -/
  ToUpper : String → String
  /-- The function `strings.ToLower`. -/
  ToLower : String → String

/-- The case mappings restricted to ASCII letters: on ASCII input they are Go's
`strings.ToUpper` and `strings.ToLower`. -/
def asciiStrings : Strings where
  ToUpper := fun s => String.mk (s.data.map Char.toUpper)
  ToLower := fun s => String.mk (s.data.map Char.toLower)

/-- Go `strings.Join(elems, sep)`. -/
def Join : List String → String → String
  | [], _ => ""
  | [a], _ => a
  | a :: b :: rest, sep => a ++ sep ++ Join (b :: rest) sep

/-- Go `fmt.Sprintf("%d", n)`: the decimal rendering of an integer. -/
def Sprintf_d (n : Int) : String := toString n

/-- Go `fmt.Sprintf("%f", x)` for a `float64`. -/
def Sprintf_f (x : Float) : String := toString x

/-- Go `fmt.Sprint(b)` for a `bool`. -/
def Sprint (b : Bool) : String := if b then "true" else "false"

/-- Go `strconv.Atoi` on a 64-bit platform: an optional sign followed by one or
more decimal digits, within the range of `int`; `none` stands for a non-nil error. -/
def Atoi (s : String) : Option Int :=
  let p : Bool × List Char :=
    match s.data with
    | '-' :: r => (true, r)
    | '+' :: r => (false, r)
    | cs => (false, cs)
  if p.2 = [] ∨ p.2.all Char.isDigit = false then none
  else
    let un : Nat := p.2.foldl (fun n ch => n * 10 + (ch.toNat - 48)) 0
    let n : Int := if p.1 then -(un : Int) else (un : Int)
    if -(2 ^ 63 : Int) ≤ n ∧ n < (2 ^ 63 : Int) then some n else none

/-! ## Standard library: `url.Values` -/

/-- Go `url.Values`, a `map[string][]string`: the entries of the map, found by key. -/
abbrev Values := List (String × List String)

/-- The map index `v[key]` together with presence (`vs, ok := v[key]`). -/
def Values.lookup : Values → String → Option (List String)
  | [], _ => none
  | (k, vs) :: rest, key => if k = key then some vs else Values.lookup rest key

/-- Go `v.Get(key)`: the first value of the key, or the empty string. -/
def Values.Get (v : Values) (key : String) : String :=
  match v.lookup key with
  | some (x :: _) => x
  | _ => ""

/-- Go `v.Set(key, value)`: `v[key] = []string{value}`, replacing what the key held. -/
def Values.Set : Values → String → String → Values
  | [], key, value => [(key, [value])]
  | (k, vs) :: rest, key, value =>
    if k = key then (key, [value]) :: rest else (k, vs) :: Values.Set rest key value

/-- The UTF-8 bytes of a character. -/
def utf8Bytes (c : Char) : List Nat :=
  let n := c.toNat
  if n < 128 then [n]
  else if n < 2048 then [192 + n / 64, 128 + n % 64]
  else if n < 65536 then [224 + n / 4096, 128 + n / 64 % 64, 128 + n % 64]
  else [240 + n / 262144, 128 + n / 4096 % 64, 128 + n / 64 % 64, 128 + n % 64]

/-- The bytes of a string, as Go sees it. -/
def bytes (s : String) : List Nat := s.data.flatMap utf8Bytes

/-- Go `shouldEscape(c, encodeQueryComponent)`: only the unreserved characters
are left as they are. -/
def shouldEscape (c : Nat) : Bool :=
  !((97 ≤ c && c ≤ 122) || (65 ≤ c && c ≤ 90) || (48 ≤ c && c ≤ 57)
    || c = 45 || c = 95 || c = 46 || c = 126)

/-- The digit of `"0123456789ABCDEF"` at index `d`. -/
def upperhex (d : Nat) : Char :=
  if d < 10 then Char.ofNat (48 + d) else Char.ofNat (55 + d)

/-- Go `url.QueryEscape`. -/
def QueryEscape (s : String) : String :=
  String.mk ((bytes s).flatMap fun c =>
    if c = 32 then ['+']
    else if shouldEscape c then ['%', upperhex (c / 16), upperhex (c % 16)]
    else [Char.ofNat c])

/-- Bytewise lexicographic order of Go strings, `a <= b`. -/
def bytesLe : List Nat → List Nat → Bool
  | [], _ => true
  | _ :: _, [] => false
  | x :: xs, y :: ys => x < y || (x = y && bytesLe xs ys)

/-- Insertion of a key into a sorted list of keys. -/
def insertKey (k : String) : List String → List String
  | [] => [k]
  | x :: xs => if bytesLe (bytes k) (bytes x) then k :: x :: xs else x :: insertKey k xs

/-- Go `slices.Sort(keys)`. -/
def sortKeys (keys : List String) : List String :=
  keys.foldr insertKey []

/-- Go `v.Encode()`: the keys in sorted order, each value as `key=value` with both
sides escaped, joined by `&`. -/
def Values.Encode (v : Values) : String :=
  Join ((sortKeys (v.map Prod.fst).eraseDups).flatMap fun k =>
    ((v.lookup k).getD []).map fun x => QueryEscape k ++ "=" ++ QueryEscape x) "&"

/-! ## models.go -/

/-- The type `Cookies`, a `map[string]string`. The list holds the entries of the
map in the order in which `range` visits them. -/
abbrev Cookies := List (String × String)

/-- The orders in which `for key, value := range c` may visit the entries of the
map whose entries are `c`: every entry once, in an unspecified order. -/
def Cookies.range (c it : Cookies) : Prop := it.Perm c

/-- The method `Cookies.toString`: the loop appends `key+"="+value` for every
entry that `range` yields, and the pieces are joined by `;`. -/
def Cookies.toString (c : Cookies) : String :=
  Join (c.foldl (fun str kv => str ++ [kv.1 ++ "=" ++ kv.2]) []) ";"

/-- The struct `ErrorMessage`. -/
structure ErrorMessage where
  /-- Field `Code`. -/
  Code : Int
  /-- Field `Message`. -/
  Message : String
  deriving DecidableEq, Repr

/-- The method `(*ErrorMessage).Error`. -/
def ErrorMessage.Error (e : ErrorMessage) : String :=
  "API error: [" ++ Sprintf_d e.Code ++ "] " ++ e.Message

/-! ## screenshotapi.go: errors -/

/-- The struct `ArgError`. -/
structure ArgError where
  /-- Field `Name`. -/
  Name : String
  /-- Field `Message`. -/
  Message : String
  deriving DecidableEq, Repr

/-- The method `(*ArgError).Error`. -/
def ArgError.Error (a : ArgError) : String :=
  "invalid argument: \"" ++ a.Name ++ "\" " ++ a.Message

/-- A non-nil Go `error` value: one of the two error types of the package, or an
error of another origin (transport, filesystem, a caller-written option), known
by its text. -/
inductive GoError where
  | arg (a : ArgError)
  | api (e : ErrorMessage)
  | other (text : String)
  deriving DecidableEq, Repr

/-- The method `Error()` of the interface `error`. -/
def GoError.Error : GoError → String
  | .arg a => a.Error
  | .api e => e.Error
  | .other text => text

/-! ## options.go -/

/-- The type `Option`, `func(v url.Values) error`: the map after the call and the
returned error. -/
abbrev OptionFn := Values → Values × Option GoError

/-- The result `return &ArgError{name, message}` of an option body that has not
written to the map. -/
def fail (v : Values) (name message : String) : Values × Option GoError :=
  (v, some (.arg ⟨name, message⟩))

def MinDelay : Int := 0
def MaxDelay : Int := 10000
def MinJPGQuality : Int := 40
def MaxJPGQuality : Int := 99
def MinScale : Float := 0.5
def MaxScale : Float := 4.0
def MinSize : Int := 100
def MaxSize : Int := 3000
def MinThumbWidth : Int := 50
def MinTimeout : Int := 1000
def MaxTimeout : Int := 30000
def DefaultWidth : Int := 800

/-- A Go `map[string]bool` literal, indexed with `m[key]` (absent keys give `false`). -/
def index (m : List (String × Bool)) (key : String) : Bool :=
  match m with
  | [] => false
  | (k, b) :: rest => if k = key then b else index rest key

def errorsOutputFormats : List (String × Bool) := [("JSON", true), ("XML", true)]
def imageOutputFormats : List (String × Bool) := [("image", true), ("base64", true)]
def creditTypes : List (String × Bool) := [("SA", true), ("DRS", true)]
def imageTypes : List (String × Bool) := [("jpg", true), ("png", true), ("pdf", true)]
def modes : List (String × Bool) := [("fast", true), ("slow", true)]
def scrollPositions : List (String × Bool) := [("top", true), ("bottom", true)]

def OptionErrorsOutputFormat (S : Strings) (errorsOutputFormat : String) : OptionFn := fun v =>
  if !index errorsOutputFormats (S.ToUpper errorsOutputFormat) then
    fail v "errorsOutputFormat" "must be JSON | XML"
  else (v.Set "errorsOutputFormat" (S.ToUpper errorsOutputFormat), none)

def OptionImageOutputFormat (S : Strings) (imageOutputFormat : String) : OptionFn := fun v =>
  if !index imageOutputFormats (S.ToLower imageOutputFormat) then
    fail v "imageOutputFormat" "must be image | base64"
  else (v.Set "imageOutputFormat" (S.ToLower imageOutputFormat), none)

def OptionCredits (S : Strings) (credits : String) : OptionFn := fun v =>
  if !index creditTypes (S.ToUpper credits) then
    fail v "credits" "must be SA | DRS"
  else (v.Set "credits" (S.ToUpper credits), none)

def OptionType (S : Strings) (imageType : String) : OptionFn := fun v =>
  if !index imageTypes (S.ToLower imageType) then
    fail v "imageType" "must be jpg | png | pdf"
  else (v.Set "type" (S.ToLower imageType), none)

def OptionQuality (quality : Int) : OptionFn := fun v =>
  if quality < MinJPGQuality ∨ quality > MaxJPGQuality then
    fail v "quality" "must be between 40 and 99"
  else (v.Set "quality" (Sprintf_d quality), none)

def OptionWidth (width : Int) : OptionFn := fun v =>
  if width < MinSize ∨ width > MaxSize then
    fail v "width" "must be between 100 and 3000"
  else (v.Set "width" (Sprintf_d width), none)

def OptionHeight (height : Int) : OptionFn := fun v =>
  if height < MinSize ∨ height > MaxSize then
    fail v "height" "must be between 100 and 3000"
  else (v.Set "height" (Sprintf_d height), none)

def OptionThumbWidth (thumbWidth : Int) : OptionFn := fun v =>
  if thumbWidth < MinThumbWidth ∨ thumbWidth > MaxSize then
    fail v "thumbWidth" "must be between 50 and width param value"
  else (v.Set "thumbWidth" (Sprintf_d thumbWidth), none)

def OptionMode (S : Strings) (mode : String) : OptionFn := fun v =>
  if !index modes (S.ToLower mode) then
    fail v "mode" "must be fast | slow"
  else (v.Set "mode" (S.ToLower mode), none)

def OptionScroll (scroll : Bool) : OptionFn := fun v =>
  if scroll then (v.Set "scroll" (Sprint scroll), none) else (v, none)

def OptionScrollPosition (S : Strings) (scrollPosition : String) : OptionFn := fun v =>
  if !index scrollPositions (S.ToLower scrollPosition) then
    fail v "scrollPosition" "must be top | bottom"
  else (v.Set "scrollPosition" (S.ToLower scrollPosition), none)

def OptionFullPage (fullPage : Bool) : OptionFn := fun v =>
  if fullPage then (v.Set "fullPage" (Sprint fullPage), none) else (v, none)

def OptionNoJs (noJs : Bool) : OptionFn := fun v =>
  if noJs then (v.Set "noJs" (Sprint noJs), none) else (v, none)

def OptionDelay (delay : Int) : OptionFn := fun v =>
  if delay < MinDelay ∨ delay ≥ MaxDelay then
    fail v "delay" "must be between 0 and 10000"
  else (v.Set "delay" (Sprintf_d delay), none)

def OptionTimeout (timeout : Int) : OptionFn := fun v =>
  if timeout < MinTimeout ∨ timeout > MaxTimeout then
    fail v "timeout" "must be between 1000 and 30000"
  else (v.Set "timeout" (Sprintf_d timeout), none)

def OptionScale (scale : Float) : OptionFn := fun v =>
  if scale < MinScale ∨ scale > MaxScale then
    fail v "scale" "must be between 0.5 and 4.0"
  else (v.Set "scale" (Sprintf_f scale), none)

def OptionRetina (retina : Bool) : OptionFn := fun v =>
  if retina then (v.Set "retina" (Sprint retina), none) else (v, none)

def OptionUA (ua : String) : OptionFn := fun v =>
  (v.Set "ua" ua, none)

def OptionCookies (cookies : Cookies) : OptionFn := fun v =>
  (v.Set "cookies" cookies.toString, none)

def OptionMobile (mobile : Bool) : OptionFn := fun v =>
  if mobile then (v.Set "mobile" (Sprint mobile), none) else (v, none)

def OptionTouchScreen (touchScreen : Bool) : OptionFn := fun v =>
  if touchScreen then (v.Set "touchScreen" (Sprint touchScreen), none) else (v, none)

def OptionLandscape (landscape : Bool) : OptionFn := fun v =>
  if landscape then (v.Set "landscape" (Sprint landscape), none) else (v, none)

def OptionFailOnHostnameChange (failOnHostnameChange : Bool) : OptionFn := fun v =>
  if failOnHostnameChange then
    (v.Set "failOnHostnameChange" (Sprint failOnHostnameChange), none)
  else (v, none)

/-- The built-in options, one constructor for each function of `options.go` that
returns an `Option` (the 23 entries of the `[]Option` literal at the top of the
file), with the argument it closes over. -/
inductive Builtin where
  | ErrorsOutputFormat (errorsOutputFormat : String)
  | ImageOutputFormat (imageOutputFormat : String)
  | Credits (credits : String)
  | Type (imageType : String)
  | Quality (quality : Int)
  | Width (width : Int)
  | Height (height : Int)
  | ThumbWidth (thumbWidth : Int)
  | Mode (mode : String)
  | Scroll (scroll : Bool)
  | ScrollPosition (scrollPosition : String)
  | FullPage (fullPage : Bool)
  | NoJs (noJs : Bool)
  | Delay (delay : Int)
  | Timeout (timeout : Int)
  | Scale (scale : Float)
  | Retina (retina : Bool)
  | UA (ua : String)
  | Cookies (cookies : Cookies)
  | Mobile (mobile : Bool)
  | TouchScreen (touchScreen : Bool)
  | Landscape (landscape : Bool)
  | FailOnHostnameChange (failOnHostnameChange : Bool)

/-- The `Option` value that the constructor call returns. -/
def Builtin.option (S : Strings) : Builtin → OptionFn
  | .ErrorsOutputFormat s => OptionErrorsOutputFormat S s
  | .ImageOutputFormat s => OptionImageOutputFormat S s
  | .Credits s => OptionCredits S s
  | .Type s => OptionType S s
  | .Quality n => OptionQuality n
  | .Width n => OptionWidth n
  | .Height n => OptionHeight n
  | .ThumbWidth n => OptionThumbWidth n
  | .Mode s => OptionMode S s
  | .Scroll b => OptionScroll b
  | .ScrollPosition s => OptionScrollPosition S s
  | .FullPage b => OptionFullPage b
  | .NoJs b => OptionNoJs b
  | .Delay n => OptionDelay n
  | .Timeout n => OptionTimeout n
  | .Scale x => OptionScale x
  | .Retina b => OptionRetina b
  | .UA s => OptionUA s
  | .Cookies c => OptionCookies c
  | .Mobile b => OptionMobile b
  | .TouchScreen b => OptionTouchScreen b
  | .Landscape b => OptionLandscape b
  | .FailOnHostnameChange b => OptionFailOnHostnameChange b

/-- The query key that the body of the option passes to `v.Set`. -/
def Builtin.key : Builtin → String
  | .ErrorsOutputFormat _ => "errorsOutputFormat"
  | .ImageOutputFormat _ => "imageOutputFormat"
  | .Credits _ => "credits"
  | .Type _ => "type"
  | .Quality _ => "quality"
  | .Width _ => "width"
  | .Height _ => "height"
  | .ThumbWidth _ => "thumbWidth"
  | .Mode _ => "mode"
  | .Scroll _ => "scroll"
  | .ScrollPosition _ => "scrollPosition"
  | .FullPage _ => "fullPage"
  | .NoJs _ => "noJs"
  | .Delay _ => "delay"
  | .Timeout _ => "timeout"
  | .Scale _ => "scale"
  | .Retina _ => "retina"
  | .UA _ => "ua"
  | .Cookies _ => "cookies"
  | .Mobile _ => "mobile"
  | .TouchScreen _ => "touchScreen"
  | .Landscape _ => "landscape"
  | .FailOnHostnameChange _ => "failOnHostnameChange"

/-! ## screenshotapi.go: `setOptions` -/

/-- The `for _, opt := range opts` loop of `setOptions`; a `nil` element of the
slice is `none`. The loop returns at the first `nil` option and at the first
option that returns an error. -/
def applyOpts : List (Option OptionFn) → Values → Values × Option GoError
  | [], v => (v, none)
  | none :: _, v => (v, some (.arg ⟨"Option", "can not be nil"⟩))
  | some opt :: rest, v =>
    match opt v with
    | (v1, some err) => (v1, some err)
    | (v1, none) => applyOpts rest v1

/-- The statement `n, err := strconv.Atoi(s); if err != nil { n = 0 }`. -/
def atoiOrZero (s : String) : Int :=
  match Atoi s with
  | some n => n
  | none => 0

/-- The function `setOptions`: the loop over the options, then the comparison of
`thumbWidth` with `width` (or with `DefaultWidth` when `width` is 0). -/
def setOptions (v : Values) (opts : List (Option OptionFn)) : Values × Option GoError :=
  match applyOpts opts v with
  | (v1, some err) => (v1, some err)
  | (v1, none) =>
    let width := atoiOrZero (v1.Get "width")
    let thumbWidth := atoiOrZero (v1.Get "thumbWidth")
    if (width ≠ 0 ∧ thumbWidth > width) ∨ (width = 0 ∧ thumbWidth > DefaultWidth) then
      fail v1 "thumbWidth" "must be between 50 and width param value"
    else (v1, none)

/-! ## Vocabulary of the statements -/

/-- The map `w` is the map `v` with `key` holding exactly the one value `value`:
every other key has in `w` what it has in `v`. -/
def IsSetOf (w v : Values) (key value : String) : Prop :=
  ∀ k, w.lookup k = if k = key then some [value] else v.lookup k

/-- The text of the error that an option application returned, if any. -/
def errorText (r : Values × Option GoError) : Option String :=
  r.2.map GoError.Error

/-- The map after applying a list of (non-nil) options one after the other,
whatever they return. -/
def applyAll (opts : List OptionFn) (v : Values) : Values :=
  opts.foldl (fun w opt => (opt w).1) v

/-- Every option of the list returns `nil` when the options are applied one after
the other, starting from `v`. -/
def allSucceed : List OptionFn → Values → Prop
  | [], _ => True
  | opt :: rest, v => (opt v).2 = none ∧ allSucceed rest (opt v).1

/-- The contract of a boolean option: it never fails, given `false` it leaves the
map as it is (so the empty map stays empty and encodes to the empty string), and
given `true` it sets its key to the single value `"true"`. -/
def BoolOptionSpec (opt : Bool → OptionFn) (key : String) : Prop :=
  (∀ b v, (opt b v).2 = none) ∧
  (∀ v, (opt false v).1 = v) ∧
  (opt false []).1 = [] ∧ (opt false []).1.Encode = "" ∧
  (∀ v, IsSetOf (opt true v).1 v key "true") ∧
  (opt true []).1.Encode = key ++ "=true"

/-- The three shapes of a built-in option with query key `key`: it rejects its
argument and leaves the map alone, or it accepts and writes nothing, or it accepts
and sets `key` to a value that does not depend on the map. -/
def Shape (f : OptionFn) (key : String) : Prop :=
  (∃ e, ∀ w, f w = (w, some e)) ∨ (∀ w, f w = (w, none)) ∨
    (∃ value, ∀ w, f w = (w.Set key value, none))

/-- A caller-written option that writes a key and then returns an error. -/
def writeThenFail : OptionFn := fun v =>
  (v.Set "x" "1", some (.other "boom"))

/-! ## The client, the transport and the filesystem -/

/-- A byte sequence, Go `[]byte`. -/
abbrev Bytes := List Nat

/-- What the call `service.client.Do(ctx, req, &b)` leaves behind: either an error
(with the response, which may be `nil`, and the bytes buffered so far), or a
response with its status code and the fully buffered body. Errors of the
transport are ordinary errors, known by their text. -/
inductive Exchange where
  | failed (resp : Option Int) (buffered : Bytes) (err : String)
  | done (StatusCode : Int) (Body : Bytes)

/-- The `Client` of client.go as far as screenshotapi.go uses it: the API key,
the outcome of `NewRequest(http.MethodGet, baseURL, nil)` (the text of its error,
if any) and the transport `Do`, which answers a request with a given raw query. -/
structure Client where
  /-- Field `apiKey`. -/
  apiKey : String
  /-- The error of `client.NewRequest`, `none` for `nil`. -/
  NewRequest : Option String
  /-- The method `client.Do`, by the raw query of the request. -/
  Do : String → Exchange

/-- The standard library behind `Get`: the case mappings, the JSON decoder that
fills an `apiResponse` (or fails with a text), `os.Create` (the text of its error,
if any) and `f.Write` (on failure, the number of bytes written and the text). -/
structure Runtime where
  /-- Package `strings`. -/
  strings : Strings
  /-- The call `json.NewDecoder(bytes.NewReader(raw)).Decode(&response)`. -/
  Decode : Bytes → Except String ErrorMessage
  /-- The call `os.Create(filename)`. -/
  Create : String → Option String
  /-- The call `f.Write(resp.Body)` on the file created under the given name. -/
  Write : String → Bytes → Option (Nat × String)

/-- What a call can be observed to have done: the parameter sets of the requests
handed to the transport (each sent as its `Encode`), and the files with their
contents. -/
structure World where
  /-- The requests handed to the transport, oldest first. -/
  sent : List Values
  /-- The files, by name. -/
  files : List (String × Bytes)
  deriving DecidableEq

/-- The content of a file, if the file exists. -/
def fileContent : List (String × Bytes) → String → Option Bytes
  | [], _ => none
  | (n, c) :: rest, name => if n = name then some c else fileContent rest name

/-- The files after a file has been created (or truncated) and given a content. -/
def setFile : List (String × Bytes) → String → Bytes → List (String × Bytes)
  | [], name, content => [(name, content)]
  | (n, c) :: rest, name, content =>
    if n = name then (name, content) :: rest else (n, c) :: setFile rest name content

/-- The struct `Response` behind the pointer that `request` and `GetRaw` return,
together with the returned error: `(nil, err)`, `(&Response{...}, err)` or
`(&Response{...}, nil)`. -/
inductive Result where
  | invalid (err : GoError)
  | failed (resp : Option Int) (Body : Bytes) (err : GoError)
  | ok (StatusCode : Int) (Body : Bytes)
  deriving DecidableEq

/-- The error of a `Result`, `none` for `nil`. -/
def Result.err : Result → Option GoError
  | .invalid err => some err
  | .failed _ _ err => some err
  | .ok _ _ => none

/-- Modelled from the spec: `checkResponse` of client.go, which is not among the
sources. Section 4.3: a status code outside the 2xx range gives the error
"API failed with status code: <code>", a status code inside it gives `nil`. -/
def checkResponse (StatusCode : Int) : Option GoError :=
  if 200 ≤ StatusCode ∧ StatusCode ≤ 299 then none
  else some (.other ("API failed with status code: " ++ Sprintf_d StatusCode))

/-- The method `newRequest`: the request of the client with the query
`apiKey=<key>`; the result is the parameter set that `req.URL.Query()` reads back
from that raw query. -/
def newRequest (c : Client) : Except GoError Values :=
  match c.NewRequest with
  | some err => .error (.other err)
  | none => .ok (Values.Set [] "apiKey" c.apiKey)

/-- The method `request`. -/
def request (c : Client) (w : World) (url : String) (opts : List (Option OptionFn)) :
    World × Result :=
  if url = "" then (w, .invalid (.arg ⟨"URL", "can not be empty"⟩))
  else
    match newRequest c with
    | .error err => (w, .invalid err)
    | .ok q0 =>
      match setOptions (q0.Set "url" url) opts with
      | (_, some err) => (w, .invalid err)
      | (q, none) =>
        match c.Do q.Encode with
        | .failed resp b err => ({ w with sent := w.sent ++ [q] }, .failed resp b (.other err))
        | .done status b => ({ w with sent := w.sent ++ [q] }, .ok status b)

/-- The struct `apiResponse`. -/
structure apiResponse where
  /-- The embedded `ErrorMessage`. -/
  ErrorMessage : ErrorMessage

/-- The function `parse`. -/
def parse (rt : Runtime) (raw : Bytes) : Except GoError apiResponse :=
  match rt.Decode raw with
  | .error e => .error (.other ("cannot parse response: " ++ e))
  | .ok r => .ok ⟨r⟩

/-- The end of `Get`, from `checkResponse` on: the status check, `os.Create` and
`f.Write`. -/
def store (rt : Runtime) (w : World) (filename : String) (StatusCode : Int) (Body : Bytes) :
    World × Option GoError :=
  match checkResponse StatusCode with
  | some respErr => (w, some respErr)
  | none =>
    match rt.Create filename with
    | some err => (w, some (.other err))
    | none =>
      match rt.Write filename Body with
      | some (n, err) =>
        ({ w with files := setFile w.files filename (Body.take n) }, some (.other err))
      | none => ({ w with files := setFile w.files filename Body }, none)

/-- The method `Get`. -/
def Get (rt : Runtime) (c : Client) (w : World) (url filename : String)
    (opts : List (Option OptionFn)) : World × Option GoError :=
  if filename = "" then (w, some (.arg ⟨"filename", "can not be empty"⟩))
  else
    let optsJSON := opts ++ [some (OptionErrorsOutputFormat rt.strings "JSON"),
      some (OptionImageOutputFormat rt.strings "image")]
    match request c w url optsJSON with
    | (w1, .invalid err) => (w1, some err)
    | (w1, .failed _ _ err) => (w1, some err)
    | (w1, .ok status body) =>
      match parse rt body with
      | .ok screenshotAPIResp =>
        if screenshotAPIResp.ErrorMessage.Message ≠ "" ∨ screenshotAPIResp.ErrorMessage.Code ≠ 0
        then (w1, some (.api ⟨screenshotAPIResp.ErrorMessage.Code,
          screenshotAPIResp.ErrorMessage.Message⟩))
        else store rt w1 filename status body
      | .error _ => store rt w1 filename status body

/-- The method `GetRaw`. -/
def GetRaw (c : Client) (w : World) (url : String) (opts : List (Option OptionFn)) :
    World × Result :=
  match request c w url opts with
  | (w1, .invalid err) => (w1, .invalid err)
  | (w1, .failed resp b err) => (w1, .failed resp b err)
  | (w1, .ok status b) =>
    match checkResponse status with
    | some respErr => (w1, .failed (some status) b respErr)
    | none => (w1, .ok status b)

/-- The parameter set of `request` before the options are applied: the API key
of the client and the target URL. -/
def baseQuery (c : Client) (url : String) : Values :=
  (Values.Set [] "apiKey" c.apiKey).Set "url" url

/-- A caller-written option that replaces the API key. -/
def overrideKey : OptionFn := fun v =>
  (v.Set "apiKey" "other", none)

/-- A client whose transport answers every request with status 200 and the given
body. -/
def answering (apiKey : String) (body : Bytes) : Client where
  apiKey := apiKey
  NewRequest := none
  Do := fun _ => .done 200 body

/-- A runtime with the ASCII case mappings, a filesystem that accepts every write
and a decoder that reads every body as the given payload (or rejects it). -/
def plainRuntime (payload : Except String ErrorMessage) : Runtime where
  strings := asciiStrings
  Decode := fun _ => payload
  Create := fun _ => none
  Write := fun _ _ => none

/-- The key is absent from the map, or it holds one value, the decimal rendering
of an integer between `lo` and `hi`. -/
def RenderedIn (q : Values) (key : String) (lo hi : Int) : Prop :=
  q.lookup key = none ∨ ∃ n : Int, lo ≤ n ∧ n ≤ hi ∧ q.lookup key = some [Sprintf_d n]

/-- The option is one that a constructor of `options.go` returns. -/
def IsBuiltin (f : OptionFn) : Prop :=
  ∃ (S : Strings) (o : Builtin), f = o.option S

/-- The option leaves the key `k` as it finds it, whatever it returns. -/
def Keeps (f : OptionFn) (k : String) : Prop :=
  ∀ u, (f u).1.lookup k = u.lookup k

/-- A client whose transport answers every request with the given status and
body. -/
def replying (apiKey : String) (status : Int) (body : Bytes) : Client where
  apiKey := apiKey
  NewRequest := none
  Do := fun _ => .done status body

/-- A client whose transport fails on every request with the given error text,
after it has obtained a response with the given status and buffered the given
bytes. -/
def failing (apiKey : String) (status : Int) (buffered : Bytes) (err : String) : Client where
  apiKey := apiKey
  NewRequest := none
  Do := fun _ => .failed (some status) buffered err

/-- The query keys of the 23 built-in options. -/
def optionKeys : List String :=
  ["errorsOutputFormat", "imageOutputFormat", "credits", "type", "quality", "width",
    "height", "thumbWidth", "mode", "scroll", "scrollPosition", "fullPage", "noJs", "delay",
    "timeout", "scale", "retina", "ua", "cookies", "mobile", "touchScreen", "landscape",
    "failOnHostnameChange"]

/-- The body carries no application error for `Get`: it does not decode, or it
decodes to code 0 and an empty message. -/
def NoPayloadError (rt : Runtime) (body : Bytes) : Prop :=
  ∀ r, rt.Decode body = .ok r → r.Code = 0 ∧ r.Message = ""

/-- The comparison of `thumbWidth` with `width` at the end of `setOptions` fails:
the loop over the options returns no error, and `setOptions` returns one. -/
def crossCheckFails (v : Values) (opts : List (Option OptionFn)) : Prop :=
  (applyOpts opts v).2 = none ∧ (setOptions v opts).2 ≠ none

/-! ## Lemmas on `url.Values` -/

theorem lookup_Set (v : Values) (key value k : String) :
    (v.Set key value).lookup k = if k = key then some [value] else v.lookup k := by
  induction v with
  | nil =>
    by_cases h : k = key
    · subst h; simp [Values.Set, Values.lookup]
    · have h2 : ¬ key = k := fun e => h e.symm
      simp [Values.Set, Values.lookup, h, h2]
  | cons e rest ih =>
    obtain ⟨k0, vs⟩ := e
    by_cases h0 : k0 = key
    · subst h0
      by_cases h : k = k0
      · subst h; simp [Values.Set, Values.lookup]
      · have h2 : ¬ k0 = k := fun e => h e.symm
        simp [Values.Set, Values.lookup, h, h2]
    · by_cases h : k0 = k
      · subst h; simp [Values.Set, Values.lookup, h0]
      · simp [Values.Set, Values.lookup, h0, h, ih]

theorem isSetOf_Set (v : Values) (key value : String) :
    IsSetOf (v.Set key value) v key value :=
  fun k => lookup_Set v key value k

theorem index_errorsOutputFormats (x : String) :
    index errorsOutputFormats x = true ↔ x = "JSON" ∨ x = "XML" := by
  simp only [index, errorsOutputFormats]
  constructor
  · intro h; split_ifs at h with h1 h2
    · exact Or.inl h1.symm
    · exact Or.inr h2.symm
  · rintro (h | h) <;> subst h <;> simp

theorem index_imageOutputFormats (x : String) :
    index imageOutputFormats x = true ↔ x = "image" ∨ x = "base64" := by
  simp only [index, imageOutputFormats]
  constructor
  · intro h; split_ifs at h with h1 h2
    · exact Or.inl h1.symm
    · exact Or.inr h2.symm
  · rintro (h | h) <;> subst h <;> simp

theorem index_creditTypes (x : String) :
    index creditTypes x = true ↔ x = "SA" ∨ x = "DRS" := by
  simp only [index, creditTypes]
  constructor
  · intro h; split_ifs at h with h1 h2
    · exact Or.inl h1.symm
    · exact Or.inr h2.symm
  · rintro (h | h) <;> subst h <;> simp

theorem index_imageTypes (x : String) :
    index imageTypes x = true ↔ x = "jpg" ∨ x = "png" ∨ x = "pdf" := by
  simp only [index, imageTypes]
  constructor
  · intro h; split_ifs at h with h1 h2 h3
    · exact Or.inl h1.symm
    · exact Or.inr (Or.inl h2.symm)
    · exact Or.inr (Or.inr h3.symm)
  · rintro (h | h | h) <;> subst h <;> simp

theorem index_modes (x : String) :
    index modes x = true ↔ x = "fast" ∨ x = "slow" := by
  simp only [index, modes]
  constructor
  · intro h; split_ifs at h with h1 h2
    · exact Or.inl h1.symm
    · exact Or.inr h2.symm
  · rintro (h | h) <;> subst h <;> simp

theorem index_scrollPositions (x : String) :
    index scrollPositions x = true ↔ x = "top" ∨ x = "bottom" := by
  simp only [index, scrollPositions]
  constructor
  · intro h; split_ifs at h with h1 h2
    · exact Or.inl h1.symm
    · exact Or.inr h2.symm
  · rintro (h | h) <;> subst h <;> simp

/-! ## Integer options -/

/-- An integer option with an inclusive range: success exactly inside the range,
and then the key holds the decimal rendering. -/
theorem intOption_spec (lo hi : Int) (key msg : String) (n : Int) (v : Values) :
    let r : Values × Option GoError :=
      if n < lo ∨ n > hi then fail v key msg else (v.Set key (Sprintf_d n), none)
    (r.2 = none ↔ lo ≤ n ∧ n ≤ hi) ∧ (lo ≤ n ∧ n ≤ hi → IsSetOf r.1 v key (Sprintf_d n)) := by
  intro r
  by_cases h : n < lo ∨ n > hi
  · have hr : r = fail v key msg := if_pos h
    have hn : ¬ (lo ≤ n ∧ n ≤ hi) := by omega
    simp [hr, fail, hn]
  · have hr : r = (v.Set key (Sprintf_d n), none) := if_neg h
    have hn : lo ≤ n ∧ n ≤ hi := by omega
    simp [hr, hn, isSetOf_Set]

/-- C1: the integer options accept exactly their inclusive range (quality 40..99,
width and height 100..3000, thumbWidth 50..3000, timeout 1000..30000), and on
success the map is `v` with the option's key holding exactly one value, the
decimal rendering of the argument. -/
theorem C1_integer_options (n : Int) (v : Values) :
    (((OptionQuality n v).2 = none ↔ 40 ≤ n ∧ n ≤ 99) ∧
      (40 ≤ n ∧ n ≤ 99 → IsSetOf (OptionQuality n v).1 v "quality" (Sprintf_d n))) ∧
    (((OptionWidth n v).2 = none ↔ 100 ≤ n ∧ n ≤ 3000) ∧
      (100 ≤ n ∧ n ≤ 3000 → IsSetOf (OptionWidth n v).1 v "width" (Sprintf_d n))) ∧
    (((OptionHeight n v).2 = none ↔ 100 ≤ n ∧ n ≤ 3000) ∧
      (100 ≤ n ∧ n ≤ 3000 → IsSetOf (OptionHeight n v).1 v "height" (Sprintf_d n))) ∧
    (((OptionThumbWidth n v).2 = none ↔ 50 ≤ n ∧ n ≤ 3000) ∧
      (50 ≤ n ∧ n ≤ 3000 → IsSetOf (OptionThumbWidth n v).1 v "thumbWidth" (Sprintf_d n))) ∧
    (((OptionTimeout n v).2 = none ↔ 1000 ≤ n ∧ n ≤ 30000) ∧
      (1000 ≤ n ∧ n ≤ 30000 → IsSetOf (OptionTimeout n v).1 v "timeout" (Sprintf_d n))) :=
  ⟨intOption_spec 40 99 _ _ n v, intOption_spec 100 3000 _ _ n v,
    intOption_spec 100 3000 _ _ n v, intOption_spec 50 3000 _ _ n v,
    intOption_spec 1000 30000 _ _ n v⟩

/-- C1 at 85, 800, 600, 51 and 15000 (accepted, with the rendered values) and at
the first integers outside each range (rejected). -/
theorem C1_integer_options_witness :
    (OptionQuality 85 []).1.lookup "quality" = some ["85"] ∧
    (OptionWidth 800 []).1.Encode = "width=800" ∧
    (OptionThumbWidth 51 []).1.Encode = "thumbWidth=51" ∧
    (OptionTimeout 15000 []).1.Encode = "timeout=15000" ∧
    (OptionQuality 39 []).2 ≠ none ∧ (OptionQuality 100 []).2 ≠ none ∧
    (OptionHeight 99 []).2 ≠ none ∧ (OptionWidth 3001 []).2 ≠ none ∧
    (OptionThumbWidth 49 []).2 ≠ none ∧ (OptionTimeout 30001 []).2 ≠ none :=
  ⟨(((C1_integer_options 85 []).1.2 (by decide)) "quality").trans (by decide),
    by decide, by decide, by decide, by decide, by decide, by decide, by decide,
    by decide, by decide⟩

/-- C2: `OptionDelay(d)` succeeds exactly when `0 <= d < 10000` (0 is accepted,
10000 is rejected); on success the map is `v` with `delay` holding the decimal
rendering of `d`, and on failure the error is
`ArgError{"delay", "must be between 0 and 10000"}` and the map is `v`. -/
theorem C2_delay (d : Int) (v : Values) :
    ((OptionDelay d v).2 = none ↔ 0 ≤ d ∧ d < 10000) ∧
    (0 ≤ d ∧ d < 10000 → IsSetOf (OptionDelay d v).1 v "delay" (Sprintf_d d)) ∧
    (¬ (0 ≤ d ∧ d < 10000) →
      (OptionDelay d v).2 = some (.arg ⟨"delay", "must be between 0 and 10000"⟩)) ∧
    (OptionDelay 0 v).2 = none ∧ (OptionDelay 10000 v).2 ≠ none := by
  refine ⟨?_, ?_, ?_, by simp [OptionDelay, MinDelay, MaxDelay],
    by simp [OptionDelay, MinDelay, MaxDelay, fail]⟩
  all_goals
    by_cases h : d < MinDelay ∨ d ≥ MaxDelay
    · have hn : ¬ (0 ≤ d ∧ d < 10000) := by simp only [MinDelay, MaxDelay] at h; omega
      simp [OptionDelay, h, hn, fail]
    · have hn : 0 ≤ d ∧ d < 10000 := by simp only [MinDelay, MaxDelay] at h; omega
      simp [OptionDelay, h, hn, isSetOf_Set]

/-- C2 at 250 (accepted, encoded as `delay=250`), at 9999 and at -1. -/
theorem C2_delay_witness :
    (OptionDelay 250 []).1.lookup "delay" = some ["250"] ∧
    (OptionDelay 250 []).1.Encode = "delay=250" ∧
    (OptionDelay 9999 []).2 = none ∧
    (OptionDelay (-1) []).2 = some (.arg ⟨"delay", "must be between 0 and 10000"⟩) :=
  ⟨(((C2_delay 250 []).2.1 (by decide)) "delay").trans (by decide), by decide,
    by decide, (C2_delay (-1) []).2.2.1 (by decide)⟩

/-! ## Enumerated options -/

/-- An enumerated option: success exactly when the normalised spelling is in the
table, and then the key holds the normalised spelling. -/
theorem enumOption_spec (table : List (String × Bool)) (key name msg x : String)
    (v : Values) :
    let r : Values × Option GoError :=
      if !index table x then fail v name msg else (v.Set key x, none)
    (r.2 = none ↔ index table x = true) ∧ (index table x = true → IsSetOf r.1 v key x) := by
  intro r
  by_cases h : index table x = true
  · have hr : r = (v.Set key x, none) := by simp [r, h]
    simp [hr, h, isSetOf_Set]
  · have hr : r = fail v name msg := by simp [r, h]
    simp [hr, h, fail]

/-- C3: each enumerated option succeeds exactly when the case-normalised input is
in its allowed set, and then stores the normalised spelling under its key:
upper-case for errorsOutputFormat (JSON, XML) and credits (SA, DRS), lower-case
for imageOutputFormat (image, base64), type (jpg, png, pdf), mode (fast, slow)
and scrollPosition (top, bottom). -/
theorem C3_enumerated_options (S : Strings) (s : String) (v : Values) :
    (((OptionErrorsOutputFormat S s v).2 = none ↔
        S.ToUpper s = "JSON" ∨ S.ToUpper s = "XML") ∧
      (S.ToUpper s = "JSON" ∨ S.ToUpper s = "XML" →
        IsSetOf (OptionErrorsOutputFormat S s v).1 v "errorsOutputFormat" (S.ToUpper s))) ∧
    (((OptionCredits S s v).2 = none ↔ S.ToUpper s = "SA" ∨ S.ToUpper s = "DRS") ∧
      (S.ToUpper s = "SA" ∨ S.ToUpper s = "DRS" →
        IsSetOf (OptionCredits S s v).1 v "credits" (S.ToUpper s))) ∧
    (((OptionImageOutputFormat S s v).2 = none ↔
        S.ToLower s = "image" ∨ S.ToLower s = "base64") ∧
      (S.ToLower s = "image" ∨ S.ToLower s = "base64" →
        IsSetOf (OptionImageOutputFormat S s v).1 v "imageOutputFormat" (S.ToLower s))) ∧
    (((OptionType S s v).2 = none ↔
        S.ToLower s = "jpg" ∨ S.ToLower s = "png" ∨ S.ToLower s = "pdf") ∧
      (S.ToLower s = "jpg" ∨ S.ToLower s = "png" ∨ S.ToLower s = "pdf" →
        IsSetOf (OptionType S s v).1 v "type" (S.ToLower s))) ∧
    (((OptionMode S s v).2 = none ↔ S.ToLower s = "fast" ∨ S.ToLower s = "slow") ∧
      (S.ToLower s = "fast" ∨ S.ToLower s = "slow" →
        IsSetOf (OptionMode S s v).1 v "mode" (S.ToLower s))) ∧
    (((OptionScrollPosition S s v).2 = none ↔
        S.ToLower s = "top" ∨ S.ToLower s = "bottom") ∧
      (S.ToLower s = "top" ∨ S.ToLower s = "bottom" →
        IsSetOf (OptionScrollPosition S s v).1 v "scrollPosition" (S.ToLower s))) := by
  have e1 := enumOption_spec errorsOutputFormats "errorsOutputFormat"
    "errorsOutputFormat" "must be JSON | XML" (S.ToUpper s) v
  have e2 := enumOption_spec creditTypes "credits" "credits" "must be SA | DRS"
    (S.ToUpper s) v
  have e3 := enumOption_spec imageOutputFormats "imageOutputFormat"
    "imageOutputFormat" "must be image | base64" (S.ToLower s) v
  have e4 := enumOption_spec imageTypes "type" "imageType" "must be jpg | png | pdf"
    (S.ToLower s) v
  have e5 := enumOption_spec modes "mode" "mode" "must be fast | slow" (S.ToLower s) v
  have e6 := enumOption_spec scrollPositions "scrollPosition" "scrollPosition"
    "must be top | bottom" (S.ToLower s) v
  rw [index_errorsOutputFormats] at e1
  rw [index_creditTypes] at e2
  rw [index_imageOutputFormats] at e3
  rw [index_imageTypes] at e4
  rw [index_modes] at e5
  rw [index_scrollPositions] at e6
  exact ⟨e1, e2, e3, e4, e5, e6⟩

/-- C3 with the ASCII case mapping: `xml` is stored as `XML`, `BASE64` as
`base64`, `Png` as `png`; `CSV` and `bmp` are rejected. -/
theorem C3_enumerated_options_witness :
    (OptionErrorsOutputFormat asciiStrings "xml" []).1.lookup "errorsOutputFormat"
      = some ["XML"] ∧
    (OptionImageOutputFormat asciiStrings "BASE64" []).1.Encode
      = "imageOutputFormat=base64" ∧
    (OptionType asciiStrings "Png" []).1.Encode = "type=png" ∧
    (OptionErrorsOutputFormat asciiStrings "CSV" []).2 ≠ none ∧
    (OptionImageOutputFormat asciiStrings "bmp" []).2 ≠ none :=
  ⟨(((C3_enumerated_options asciiStrings "xml" []).1.2 (by decide))
      "errorsOutputFormat").trans (by decide),
    by decide, by decide, by decide, by decide⟩

/-! ## Error texts -/

theorem errorText_fail (v : Values) (name msg : String) :
    errorText (fail v name msg) = some ("invalid argument: \"" ++ name ++ "\" " ++ msg) :=
  rfl

theorem enumOption_fail (table : List (String × Bool)) (key name msg x : String)
    (v : Values) (h : ¬ index table x = true) :
    (if !index table x then fail v name msg else (v.Set key x, none)) = fail v name msg := by
  simp [h]

theorem intOption_fail (lo hi : Int) (key msg : String) (n : Int) (v : Values)
    (h : ¬ (lo ≤ n ∧ n ≤ hi)) :
    (if n < lo ∨ n > hi then fail v key msg else (v.Set key (Sprintf_d n), none))
      = fail v key msg := by
  have h2 : n < lo ∨ n > hi := by omega
  simp [h2]

/-- C4: a built-in option applied with a value outside its domain returns an error
whose `Error()` text is `invalid argument: "<name>" <constraint>` with the name and
constraint of that option; the name of `OptionType` is `imageType` although its
query key is `type`. This covers every built-in option that can fail: the six
enumerated ones, the six integer ones and `OptionScale`, whose domain is taken as
the code compares it (a `float64` below 0.5 or above 4.0 is outside). -/
theorem C4_error_texts (S : Strings) (s : String) (n : Int) (x : Float) (v : Values) :
    (¬ (S.ToUpper s = "JSON" ∨ S.ToUpper s = "XML") →
      errorText (OptionErrorsOutputFormat S s v)
        = some "invalid argument: \"errorsOutputFormat\" must be JSON | XML") ∧
    (¬ (S.ToLower s = "image" ∨ S.ToLower s = "base64") →
      errorText (OptionImageOutputFormat S s v)
        = some "invalid argument: \"imageOutputFormat\" must be image | base64") ∧
    (¬ (S.ToUpper s = "SA" ∨ S.ToUpper s = "DRS") →
      errorText (OptionCredits S s v) = some "invalid argument: \"credits\" must be SA | DRS") ∧
    (¬ (S.ToLower s = "jpg" ∨ S.ToLower s = "png" ∨ S.ToLower s = "pdf") →
      errorText (OptionType S s v)
        = some "invalid argument: \"imageType\" must be jpg | png | pdf") ∧
    (¬ (40 ≤ n ∧ n ≤ 99) →
      errorText (OptionQuality n v)
        = some "invalid argument: \"quality\" must be between 40 and 99") ∧
    (¬ (100 ≤ n ∧ n ≤ 3000) →
      errorText (OptionWidth n v)
        = some "invalid argument: \"width\" must be between 100 and 3000") ∧
    (¬ (100 ≤ n ∧ n ≤ 3000) →
      errorText (OptionHeight n v)
        = some "invalid argument: \"height\" must be between 100 and 3000") ∧
    (¬ (50 ≤ n ∧ n ≤ 3000) →
      errorText (OptionThumbWidth n v)
        = some "invalid argument: \"thumbWidth\" must be between 50 and width param value") ∧
    (¬ (S.ToLower s = "fast" ∨ S.ToLower s = "slow") →
      errorText (OptionMode S s v) = some "invalid argument: \"mode\" must be fast | slow") ∧
    (¬ (S.ToLower s = "top" ∨ S.ToLower s = "bottom") →
      errorText (OptionScrollPosition S s v)
        = some "invalid argument: \"scrollPosition\" must be top | bottom") ∧
    (¬ (0 ≤ n ∧ n < 10000) →
      errorText (OptionDelay n v)
        = some "invalid argument: \"delay\" must be between 0 and 10000") ∧
    (¬ (1000 ≤ n ∧ n ≤ 30000) →
      errorText (OptionTimeout n v)
        = some "invalid argument: \"timeout\" must be between 1000 and 30000") ∧
    (x < 0.5 ∨ x > 4.0 →
      errorText (OptionScale x v)
        = some "invalid argument: \"scale\" must be between 0.5 and 4.0") := by
  refine ⟨?_, ?_, ?_, ?_, ?_, ?_, ?_, ?_, ?_, ?_, ?_, ?_, ?_⟩
  · intro h
    rw [← index_errorsOutputFormats] at h
    exact (congrArg errorText (enumOption_fail _ "errorsOutputFormat" _ _ _ v h)).trans
      (errorText_fail v _ _)
  · intro h
    rw [← index_imageOutputFormats] at h
    exact (congrArg errorText (enumOption_fail _ "imageOutputFormat" _ _ _ v h)).trans
      (errorText_fail v _ _)
  · intro h
    rw [← index_creditTypes] at h
    exact (congrArg errorText (enumOption_fail _ "credits" _ _ _ v h)).trans
      (errorText_fail v _ _)
  · intro h
    rw [← index_imageTypes] at h
    exact (congrArg errorText (enumOption_fail _ "type" _ _ _ v h)).trans
      (errorText_fail v _ _)
  · intro h
    exact (congrArg errorText (intOption_fail 40 99 "quality" _ n v h)).trans
      (errorText_fail v _ _)
  · intro h
    exact (congrArg errorText (intOption_fail 100 3000 "width" _ n v h)).trans
      (errorText_fail v _ _)
  · intro h
    exact (congrArg errorText (intOption_fail 100 3000 "height" _ n v h)).trans
      (errorText_fail v _ _)
  · intro h
    exact (congrArg errorText (intOption_fail 50 3000 "thumbWidth" _ n v h)).trans
      (errorText_fail v _ _)
  · intro h
    rw [← index_modes] at h
    exact (congrArg errorText (enumOption_fail _ "mode" _ _ _ v h)).trans
      (errorText_fail v _ _)
  · intro h
    rw [← index_scrollPositions] at h
    exact (congrArg errorText (enumOption_fail _ "scrollPosition" _ _ _ v h)).trans
      (errorText_fail v _ _)
  · intro h
    have h2 : n < MinDelay ∨ n ≥ MaxDelay := by simp only [MinDelay, MaxDelay]; omega
    have h3 : OptionDelay n v = fail v "delay" "must be between 0 and 10000" := by
      simp [OptionDelay, h2]
    rw [h3]; rfl
  · intro h
    exact (congrArg errorText (intOption_fail 1000 30000 "timeout" _ n v h)).trans
      (errorText_fail v _ _)
  · intro h
    have h2 : OptionScale x v = fail v "scale" "must be between 0.5 and 4.0" := if_pos h
    rw [h2]; rfl

/-- C4 at the rejected values of the tests: `CSV`, `gif`, 100 as quality, 3001 as
thumb width and 10000 as delay. -/
theorem C4_error_texts_witness :
    errorText (OptionErrorsOutputFormat asciiStrings "CSV" [])
      = some "invalid argument: \"errorsOutputFormat\" must be JSON | XML" ∧
    errorText (OptionType asciiStrings "gif" [])
      = some "invalid argument: \"imageType\" must be jpg | png | pdf" ∧
    errorText (OptionQuality 100 [])
      = some "invalid argument: \"quality\" must be between 40 and 99" ∧
    errorText (OptionThumbWidth 3001 [])
      = some "invalid argument: \"thumbWidth\" must be between 50 and width param value" ∧
    errorText (OptionDelay 10000 [])
      = some "invalid argument: \"delay\" must be between 0 and 10000" :=
  ⟨(C4_error_texts asciiStrings "CSV" 100 10 []).1 (by decide),
    (C4_error_texts asciiStrings "gif" 100 10 []).2.2.2.1 (by decide),
    (C4_error_texts asciiStrings "gif" 100 10 []).2.2.2.2.1 (by decide),
    (C4_error_texts asciiStrings "gif" 3001 10 []).2.2.2.2.2.2.2.1 (by decide),
    (C4_error_texts asciiStrings "gif" 10000 10 []).2.2.2.2.2.2.2.2.2.2.1 (by decide)⟩

/-! ## Failing options -/

/-- A built-in option either returns `nil` or leaves the map as it found it. -/
theorem builtin_nil_or_unchanged (S : Strings) (o : Builtin) (v : Values) :
    (o.option S v).2 = none ∨ (o.option S v).1 = v := by
  cases o <;>
    simp only [Builtin.option, OptionErrorsOutputFormat, OptionImageOutputFormat, OptionCredits,
      OptionType, OptionQuality, OptionWidth, OptionHeight, OptionThumbWidth, OptionMode,
      OptionScroll, OptionScrollPosition, OptionFullPage, OptionNoJs, OptionDelay,
      OptionTimeout, OptionScale, OptionRetina, OptionUA, OptionCookies, OptionMobile,
      OptionTouchScreen, OptionLandscape, OptionFailOnHostnameChange] <;>
    first
      | exact Or.inl rfl
      | exact Or.inl trivial
      | (split <;> first | exact Or.inl rfl | exact Or.inr rfl)

/-- C5: option application is atomic on failure. If a built-in option returns an
error, the map is unchanged: it is the same map, so every key has the values it
had; and a failing option applied to the empty map leaves it encoding to the
empty string. -/
theorem C5_atomic_on_failure (S : Strings) (o : Builtin) (v : Values) (e : GoError)
    (h : (o.option S v).2 = some e) :
    (o.option S v).1 = v ∧ (∀ k, (o.option S v).1.lookup k = v.lookup k) ∧
    (v = [] → (o.option S v).1.Encode = "") := by
  have hv : (o.option S v).1 = v := by
    rcases builtin_nil_or_unchanged S o v with h1 | h1
    · rw [h1] at h; exact absurd h (by simp)
    · exact h1
  refine ⟨hv, fun k => by rw [hv], fun h0 => ?_⟩
  rw [hv, h0]; rfl

/-- C5 at `OptionThumbWidth(3001)` on a map that already has a width, and at
`OptionErrorsOutputFormat("CSV")` on the empty map. -/
theorem C5_atomic_on_failure_witness :
    ((Builtin.ThumbWidth 3001).option asciiStrings [("width", ["800"])]).1
      = [("width", ["800"])] ∧
    ((Builtin.ErrorsOutputFormat "CSV").option asciiStrings []).1.Encode = "" :=
  ⟨(C5_atomic_on_failure asciiStrings (.ThumbWidth 3001) [("width", ["800"])]
      (.arg ⟨"thumbWidth", "must be between 50 and width param value"⟩) (by decide)).1,
    (C5_atomic_on_failure asciiStrings (.ErrorsOutputFormat "CSV") []
      (.arg ⟨"errorsOutputFormat", "must be JSON | XML"⟩) (by decide)).2.2 rfl⟩

/-! ## Boolean options -/

theorem boolOption_spec (key : String)
    (henc : Values.Encode [(key, ["true"])] = key ++ "=true") :
    BoolOptionSpec
      (fun b v => if b then (v.Set key (Sprint b), none) else (v, none)) key :=
  ⟨fun b v => by cases b <;> rfl, fun _ => rfl, rfl, rfl,
    fun v => isSetOf_Set v key "true", henc⟩

/-- C6: each of the eight boolean options never returns an error; given `false`
it leaves the map as it is, so the empty map stays empty and the key is not in the
encoded query; given `true` it sets its key to exactly the single value `"true"`,
which the empty map then encodes as `key=true`. -/
theorem C6_boolean_options :
    BoolOptionSpec OptionScroll "scroll" ∧
    BoolOptionSpec OptionFullPage "fullPage" ∧
    BoolOptionSpec OptionNoJs "noJs" ∧
    BoolOptionSpec OptionRetina "retina" ∧
    BoolOptionSpec OptionMobile "mobile" ∧
    BoolOptionSpec OptionTouchScreen "touchScreen" ∧
    BoolOptionSpec OptionLandscape "landscape" ∧
    BoolOptionSpec OptionFailOnHostnameChange "failOnHostnameChange" :=
  ⟨boolOption_spec "scroll" (by decide), boolOption_spec "fullPage" (by decide),
    boolOption_spec "noJs" (by decide), boolOption_spec "retina" (by decide),
    boolOption_spec "mobile" (by decide), boolOption_spec "touchScreen" (by decide),
    boolOption_spec "landscape" (by decide),
    boolOption_spec "failOnHostnameChange" (by decide)⟩

/-! ## The shape of a built-in option -/

theorem shape_if (c : Prop) [Decidable c] (key name msg value : String) :
    Shape (fun v => if c then fail v name msg else (v.Set key value, none)) key := by
  by_cases h : c
  · exact Or.inl ⟨.arg ⟨name, msg⟩, fun w => by simp [h, fail]⟩
  · exact Or.inr (Or.inr ⟨value, fun w => by simp [h]⟩)

theorem shape_bool (key : String) (b : Bool) :
    Shape (fun v => if b then (v.Set key (Sprint b), none) else (v, none)) key := by
  cases b
  · exact Or.inr (Or.inl fun w => rfl)
  · exact Or.inr (Or.inr ⟨"true", fun w => rfl⟩)

theorem shape_set (key value : String) :
    Shape (fun v => (v.Set key value, none)) key :=
  Or.inr (Or.inr ⟨value, fun _ => rfl⟩)

theorem builtin_shape (S : Strings) (o : Builtin) : Shape (o.option S) o.key := by
  cases o <;>
    first
      | exact shape_if _ _ _ _ _
      | exact shape_bool _ _
      | exact shape_set _ _

/-! ## Two options for the same key -/

/-- C7, as stated, fails: `OptionScroll(true)` followed by `OptionScroll(false)`
leaves `scroll` at `"true"`, while `OptionScroll(false)` alone on the empty map
leaves the key absent. -/
theorem C7_counterexample :
    ¬ (∀ (S : Strings) (v : Values) (o1 o2 : Builtin), o1.key = o2.key →
        (o1.option S v).2 = none → (o2.option S (o1.option S v).1).2 = none →
        (o2.option S (o1.option S v).1).1.lookup o1.key
          = (o2.option S []).1.lookup o1.key) := by
  intro h
  have h1 := h asciiStrings [] (.Scroll true) (.Scroll false) rfl rfl rfl
  exact absurd h1 (by decide)

/-- C7, amended: for two built-in options with the same key that both succeed,
applied in call order, an option that writes its key (every option but a boolean
one given `false`) overwrites: the key ends in the state that the second option
alone produces on the empty map, whatever the first one wrote. A second option
that writes nothing on the empty map (a boolean option given `false`) writes
nothing here either: the map stays as the first option left it. -/
theorem C7_same_key_overwrite (S : Strings) (v : Values) (o1 o2 : Builtin)
    (hk : o1.key = o2.key) (_h1 : (o1.option S v).2 = none)
    (h2 : (o2.option S (o1.option S v).1).2 = none) :
    ((o2.option S []).1.lookup o1.key ≠ none →
      (o2.option S (o1.option S v).1).1.lookup o1.key
        = (o2.option S []).1.lookup o1.key) ∧
    ((o2.option S []).1.lookup o1.key = none →
      (o2.option S (o1.option S v).1).1 = (o1.option S v).1) := by
  rw [hk]
  rcases builtin_shape S o2 with ⟨e, he⟩ | hno | ⟨value, hset⟩
  · rw [he] at h2; exact absurd h2 (by simp)
  · exact ⟨fun hne => absurd (by rw [hno]; rfl) hne, fun _ => by rw [hno]⟩
  · refine ⟨fun _ => ?_, fun hnone => ?_⟩
    · rw [hset, hset, lookup_Set, lookup_Set]; simp
    · rw [hset, lookup_Set] at hnone; simp at hnone

/-- C7, amended, at `OptionWidth(800)` then `OptionWidth(1000)` on a map that has
a width, and at `OptionScroll(true)` then `OptionScroll(false)`. -/
theorem C7_same_key_overwrite_witness :
    ((Builtin.Width 1000).option asciiStrings
        ((Builtin.Width 800).option asciiStrings [("width", ["640"])]).1).1.lookup "width"
      = some ["1000"] ∧
    ((Builtin.Scroll false).option asciiStrings
        ((Builtin.Scroll true).option asciiStrings []).1).1
      = [("scroll", ["true"])] :=
  ⟨((C7_same_key_overwrite asciiStrings [("width", ["640"])] (.Width 800) (.Width 1000)
      rfl (by decide) (by decide)).1 (by decide)).trans (by decide),
    ((C7_same_key_overwrite asciiStrings [] (.Scroll true) (.Scroll false)
      rfl (by decide) (by decide)).2 (by decide)).trans (by decide)⟩

/-! ## Cookies -/

theorem foldl_append_singleton {α β : Type} (f : α → β) (l : List α) (acc : List β) :
    l.foldl (fun str x => str ++ [f x]) acc = acc ++ l.map f := by
  induction l generalizing acc with
  | nil => simp
  | cons a rest ih => simp [ih]

theorem toString_eq_Join (c : Cookies) :
    c.toString = Join (c.map fun kv => kv.1 ++ "=" ++ kv.2) ";" := by
  unfold Cookies.toString
  rw [foldl_append_singleton (fun kv : String × String => kv.1 ++ "=" ++ kv.2) c []]
  simp

theorem length_Join (l : List String) (sep : String) :
    (Join l sep).length = (l.map String.length).sum + (l.length - 1) * sep.length := by
  induction l with
  | nil => simp [Join]
  | cons a rest ih =>
    cases rest with
    | nil => simp [Join]
    | cons b rest2 =>
      simp only [Join, String.length_append, ih, List.map_cons, List.sum_cons,
        List.length_cons]
      have : rest2.length + 1 + 1 - 1 = (rest2.length + 1 - 1) + 1 := by omega
      rw [this, Nat.add_mul]
      omega

/-- C8: for a map with entries `c` visited by `range` in the order `it`, `toString`
is the `name=value` renderings of the visited entries joined by `;`; these are the
renderings of the entries of `c`, each exactly once, so there are `len(c)` pairs
and the string is as long as the pairs together plus `len(c) - 1` separators. The
empty map gives the empty string and the map of `a` to `1` gives `a=1`.
`OptionCookies` never fails and sets `cookies` to that string, also for the empty
map, where the key is present with the empty value. -/
theorem C8_cookies (c it : Cookies) (v : Values) (hr : Cookies.range c it) :
    (∃ pairs : List String,
      it.toString = Join pairs ";" ∧
      pairs.Perm (c.map fun kv => kv.1 ++ "=" ++ kv.2) ∧
      pairs.length = c.length ∧
      it.toString.length = (pairs.map String.length).sum + (c.length - 1)) ∧
    Cookies.toString [] = "" ∧
    Cookies.toString [("a", "1")] = "a=1" ∧
    (OptionCookies it v).2 = none ∧
    IsSetOf (OptionCookies it v).1 v "cookies" it.toString ∧
    (OptionCookies [] v).1.lookup "cookies" = some [""] := by
  have hlen : it.length = c.length := List.Perm.length_eq hr
  refine ⟨⟨it.map fun kv => kv.1 ++ "=" ++ kv.2, toString_eq_Join it,
    List.Perm.map _ hr, by simp [hlen], ?_⟩, by decide, by decide, rfl,
    isSetOf_Set v _ _, ?_⟩
  · have hsep : ";".length = 1 := by decide
    rw [toString_eq_Join, length_Join, hsep]
    simp [hlen]
  · have h := isSetOf_Set v "cookies" (Cookies.toString []) "cookies"
    simpa [OptionCookies] using h

/-- C8 at the two-entry map of the tests, visited in the other order. -/
theorem C8_cookies_witness :
    Cookies.range [("name1", "value1"), ("name2", "value2")]
      [("name2", "value2"), ("name1", "value1")] ∧
    Cookies.toString [("name2", "value2"), ("name1", "value1")]
      = "name2=value2;name1=value1" ∧
    (OptionCookies [("name2", "value2"), ("name1", "value1")] []).1.lookup "cookies"
      = some ["name2=value2;name1=value1"] :=
  ⟨List.Perm.swap _ _ _, by decide,
    ((C8_cookies [("name1", "value1"), ("name2", "value2")]
      [("name2", "value2"), ("name1", "value1")] [] (List.Perm.swap _ _ _)).2.2.2.2.1
        "cookies").trans (by decide)⟩

/-! ## `setOptions` -/

theorem applyOpts_append (pre : List OptionFn) (rest : List (Option OptionFn))
    (v : Values) (h : allSucceed pre v) :
    applyOpts (pre.map some ++ rest) v = applyOpts rest (applyAll pre v) := by
  induction pre generalizing v with
  | nil => rfl
  | cons opt more ih =>
    obtain ⟨h1, h2⟩ := h
    have hv : opt v = ((opt v).1, none) := Prod.ext rfl h1
    have step : applyOpts (some opt :: (more.map some ++ rest)) v
        = applyOpts (more.map some ++ rest) (opt v).1 := by
      simp only [applyOpts]
      rw [hv]
    simpa [applyAll] using step.trans (ih (opt v).1 h2)

theorem setOptions_of_error (v : Values) (opts : List (Option OptionFn)) (w : Values)
    (e : GoError) (h : applyOpts opts v = (w, some e)) :
    setOptions v opts = (w, some e) := by
  simp [setOptions, h]

/-- C9: when the first `nil` element of the option list is at index `i` (the list
is `i` non-nil options, then `nil`, then anything) and the options before it all
succeed, `setOptions` returns `ArgError{"Option", "can not be nil"}` and the map is
the one the first `i` options produced: nothing after index `i` is applied, and no
comparison of `thumbWidth` with `width` takes place, whatever the map holds. -/
theorem C9_nil_option (v : Values) (pre : List OptionFn) (rest : List (Option OptionFn))
    (h : allSucceed pre v) :
    (pre.map some ++ none :: rest)[pre.length]? = some none ∧
    setOptions v (pre.map some ++ none :: rest)
      = (applyAll pre v, some (.arg ⟨"Option", "can not be nil"⟩)) ∧
    errorText (setOptions v (pre.map some ++ none :: rest))
      = some "invalid argument: \"Option\" can not be nil" := by
  have hs : setOptions v (pre.map some ++ none :: rest)
      = (applyAll pre v, some (.arg ⟨"Option", "can not be nil"⟩)) :=
    setOptions_of_error v _ _ _ (by rw [applyOpts_append pre _ v h]; rfl)
  refine ⟨?_, hs, ?_⟩
  · have hl : (pre.map some).length = pre.length := by simp
    rw [List.getElem?_append_right (by omega)]
    simp
  · rw [hs]; rfl

/-- C9 at the list `OptionThumbWidth(3000), nil, OptionWidth(5)`: the error is the
one of the `nil` option, although the thumb width alone would fail the comparison
with the default width and `OptionWidth(5)` would be rejected. -/
theorem C9_nil_option_witness :
    setOptions [] [some (OptionThumbWidth 3000), none, some (OptionWidth 5)]
      = ([("thumbWidth", ["3000"])], some (.arg ⟨"Option", "can not be nil"⟩)) ∧
    errorText (setOptions [] [some (OptionThumbWidth 3000)])
      = some "invalid argument: \"thumbWidth\" must be between 50 and width param value" :=
  ⟨(C9_nil_option [] [OptionThumbWidth 3000] [some (OptionWidth 5)]
      ⟨by decide, trivial⟩).2.1.trans (by decide),
    by decide⟩

/-- C10, as stated, fails for an option written by the caller: an option that
sets a key and then returns an error leaves that key in the map. -/
theorem C10_counterexample :
    ¬ (∀ (v : Values) (pre : List OptionFn) (f : OptionFn) (rest : List (Option OptionFn))
        (e : GoError), allSucceed pre v → (f (applyAll pre v)).2 = some e →
        (setOptions v (pre.map some ++ some f :: rest)).2 = some e ∧
        (setOptions v (pre.map some ++ some f :: rest)).1 = applyAll pre v) := by
  intro h
  have h1 := (h [] [] writeThenFail [] (.other "boom") trivial rfl).2
  exact absurd h1 (by decide)

/-- C10, amended: when option `i` is the first one that returns an error `e`,
`setOptions` returns exactly `e`, no option after index `i` is applied, and the
map is the result of applying options `0..i-1` in order followed by whatever
option `i` itself wrote before it returned; a built-in option writes nothing when
it fails, so then the map is the result of options `0..i-1`. -/
theorem C10_fail_fast (v : Values) (pre : List OptionFn) (f : OptionFn)
    (rest : List (Option OptionFn)) (e : GoError) (h : allSucceed pre v)
    (hf : (f (applyAll pre v)).2 = some e) :
    setOptions v (pre.map some ++ some f :: rest) = ((f (applyAll pre v)).1, some e) ∧
    (∀ (S : Strings) (b : Builtin), f = b.option S →
      setOptions v (pre.map some ++ some f :: rest) = (applyAll pre v, some e)) := by
  have hfv : f (applyAll pre v) = ((f (applyAll pre v)).1, some e) := Prod.ext rfl hf
  have hs : setOptions v (pre.map some ++ some f :: rest)
      = ((f (applyAll pre v)).1, some e) := by
    apply setOptions_of_error
    rw [applyOpts_append pre _ v h]
    simp only [applyOpts]
    rw [hfv]
  refine ⟨hs, fun S b hb => ?_⟩
  rw [hs]
  rcases builtin_nil_or_unchanged S b (applyAll pre v) with h1 | h1
  · rw [← hb, hf] at h1; exact absurd h1 (by simp)
  · rw [← hb] at h1; rw [h1]

/-- C10, amended, at `OptionWidth(800), OptionQuality(100), nil`: the error is
the one of the quality option, the map holds the width only, and the `nil` option
behind it is not reached. -/
theorem C10_fail_fast_witness :
    setOptions [] [some (OptionWidth 800), some (OptionQuality 100), none]
      = ([("width", ["800"])], some (.arg ⟨"quality", "must be between 40 and 99"⟩)) :=
  ((C10_fail_fast [] [OptionWidth 800] (OptionQuality 100) [none]
    (.arg ⟨"quality", "must be between 40 and 99"⟩) ⟨by decide, trivial⟩
    (by decide)).2 asciiStrings (.Quality 100) rfl).trans (by decide)

/-! ## Decimal rendering and `strconv.Atoi` -/

theorem digitChar_isDigit (d : Nat) (h : d < 10) :
    (Nat.digitChar d).isDigit = true ∧ (Nat.digitChar d).toNat - 48 = d := by
  interval_cases d <;> decide

/-- The digits that `Nat.toDigitsCore` puts in front of `ds` are decimal digits
whose value is `n`. -/
theorem toDigitsCore_spec (fuel n : Nat) (ds : List Char) (h : n < fuel) :
    ∃ l : List Char, Nat.toDigitsCore 10 fuel n ds = l ++ ds ∧ l ≠ [] ∧
      l.all Char.isDigit = true ∧
      ∀ acc : Nat, l.foldl (fun m ch => m * 10 + (ch.toNat - 48)) acc
        = acc * 10 ^ l.length + n := by
  induction fuel generalizing n ds with
  | zero => omega
  | succ fuel ih =>
    have hd := digitChar_isDigit (n % 10) (Nat.mod_lt n (by decide))
    by_cases h0 : n / 10 = 0
    · refine ⟨[Nat.digitChar (n % 10)], ?_, by simp, by simp [hd.1], ?_⟩
      · simp [Nat.toDigitsCore, h0]
      · intro acc
        have hn : n % 10 = n := by omega
        have h2 := hd.2
        simp only [List.foldl_cons, List.foldl_nil, List.length_singleton, pow_one, h2]
        omega
    · have hlt : n / 10 < fuel := by omega
      obtain ⟨l, hl, _, hall, hval⟩ := ih (n / 10) (Nat.digitChar (n % 10) :: ds) hlt
      refine ⟨l ++ [Nat.digitChar (n % 10)], ?_, by simp, ?_, ?_⟩
      · simp [Nat.toDigitsCore, h0, hl]
      · simp [List.all_append, hall, hd.1]
      · intro acc
        rw [List.foldl_append, hval acc]
        simp only [List.foldl_cons, List.foldl_nil, hd.2, List.length_append,
          List.length_singleton, pow_succ]
        have := Nat.div_add_mod n 10
        nlinarith [this]

theorem Atoi_Sprintf_d (n : Nat) (h : n < 2 ^ 63) : Atoi (Sprintf_d (n : Int)) = some (n : Int) := by
  obtain ⟨l, hl, hne, hall, hval⟩ := toDigitsCore_spec (n + 1) n [] (by omega)
  have hs : (Sprintf_d (n : Int)).data = l := by
    show (Nat.repr n).data = l
    simp [Nat.repr, Nat.toDigits, hl, List.asString]
  obtain ⟨c, r, rfl⟩ := List.exists_cons_of_ne_nil hne
  have hc : c.isDigit = true := by
    simp only [List.all_cons, Bool.and_eq_true] at hall; exact hall.1
  have hm : c ≠ '-' := by intro e; subst e; exact absurd hc (by decide)
  have hp : c ≠ '+' := by intro e; subst e; exact absurd hc (by decide)
  have hv := hval 0
  simp only [Nat.zero_mul, Nat.zero_add] at hv
  unfold Atoi
  rw [hs]
  split
  · rename_i heq; simp only [List.cons.injEq] at heq; exact absurd heq.1 hm
  · rename_i heq; simp only [List.cons.injEq] at heq; exact absurd heq.1 hp
  · have h3 : n < 9223372036854775808 := by norm_num at h; exact h
    simp [hall, hv]
    omega

theorem atoiOrZero_Sprintf_d (n : Int) (h0 : 0 ≤ n) (h1 : n ≤ 3000) :
    atoiOrZero (Sprintf_d n) = n := by
  obtain ⟨m, rfl⟩ := Int.eq_ofNat_of_zero_le h0
  have hm : m < 2 ^ 63 := by
    have : m ≤ 3000 := by exact_mod_cast h1
    have : (3000 : Nat) < 2 ^ 63 := by norm_num
    omega
  simp [atoiOrZero, Atoi_Sprintf_d m hm]

theorem Get_of_lookup (v : Values) (key x : String) (h : v.lookup key = some [x]) :
    v.Get key = x := by
  simp [Values.Get, h]

theorem Get_of_lookup_none (v : Values) (key : String) (h : v.lookup key = none) :
    v.Get key = "" := by
  simp [Values.Get, h]

theorem setOptions_fst (v : Values) (opts : List (Option OptionFn)) :
    (setOptions v opts).1 = (applyOpts opts v).1 := by
  unfold setOptions
  rcases h : applyOpts opts v with ⟨q, _ | e⟩
  · simp only []
    split <;> rfl
  · rfl

/-- The result of `setOptions` when the loop over the options has returned no
error: only the comparison of the two widths is left. -/
theorem setOptions_of_ok (v q : Values) (opts : List (Option OptionFn))
    (h : applyOpts opts v = (q, none)) :
    setOptions v opts =
      if (atoiOrZero (q.Get "width") ≠ 0 ∧
            atoiOrZero (q.Get "thumbWidth") > atoiOrZero (q.Get "width")) ∨
          (atoiOrZero (q.Get "width") = 0 ∧ atoiOrZero (q.Get "thumbWidth") > DefaultWidth)
      then fail q "thumbWidth" "must be between 50 and width param value"
      else (q, none) := by
  simp [setOptions, h]

theorem applyOpts_of_setOptions_ok (v q : Values) (opts : List (Option OptionFn))
    (h : setOptions v opts = (q, none)) : applyOpts opts v = (q, none) := by
  unfold setOptions at h
  rcases h2 : applyOpts opts v with ⟨q1, _ | e⟩
  · rw [h2] at h
    simp only [] at h
    split at h
    · simp [fail] at h
    · simp only [Prod.mk.injEq, and_true] at h; rw [h]
  · rw [h2] at h; simp at h

/-- C11: for `w` in 100..3000 and `t` in 50..3000 both options succeed on their
own, and `setOptions` with `OptionWidth(w), OptionThumbWidth(t)` returns an error
exactly when `t > w` (so `t = w` is accepted). The error is
`ArgError{"thumbWidth", "must be between 50 and width param value"}`, the same
value that the range check of `OptionThumbWidth` returns whenever it fails. -/
theorem C11_cross_check_explicit_width (v : Values) (w t : Int)
    (hw : 100 ≤ w ∧ w ≤ 3000) (ht : 50 ≤ t ∧ t ≤ 3000) :
    (OptionWidth w v).2 = none ∧ (OptionThumbWidth t v).2 = none ∧
    ((setOptions v [some (OptionWidth w), some (OptionThumbWidth t)]).2 ≠ none ↔ t > w) ∧
    (t > w → (setOptions v [some (OptionWidth w), some (OptionThumbWidth t)]).2
      = some (.arg ⟨"thumbWidth", "must be between 50 and width param value"⟩)) ∧
    (∀ (n : Int) (u : Values), (OptionThumbWidth n u).2 ≠ none → (OptionThumbWidth n u).2
      = some (.arg ⟨"thumbWidth", "must be between 50 and width param value"⟩)) := by
  have hw1 : ¬ (w < MinSize ∨ w > MaxSize) := by simp only [MinSize, MaxSize]; omega
  have ht1 : ¬ (t < MinThumbWidth ∨ t > MaxSize) := by
    simp only [MinThumbWidth, MaxSize]; omega
  have hloop : applyOpts [some (OptionWidth w), some (OptionThumbWidth t)] v
      = ((v.Set "width" (Sprintf_d w)).Set "thumbWidth" (Sprintf_d t), none) := by
    simp [applyOpts, OptionWidth, OptionThumbWidth, hw1, ht1]
  have hgw : ((v.Set "width" (Sprintf_d w)).Set "thumbWidth" (Sprintf_d t)).Get "width"
      = Sprintf_d w :=
    Get_of_lookup _ _ _ (by rw [lookup_Set, lookup_Set]; simp)
  have hgt : ((v.Set "width" (Sprintf_d w)).Set "thumbWidth" (Sprintf_d t)).Get "thumbWidth"
      = Sprintf_d t :=
    Get_of_lookup _ _ _ (by rw [lookup_Set]; simp)
  have hs := setOptions_of_ok v _ _ hloop
  rw [hgw, hgt, atoiOrZero_Sprintf_d w (by omega) hw.2,
    atoiOrZero_Sprintf_d t (by omega) ht.2] at hs
  have hwne : w ≠ 0 := by omega
  refine ⟨by simp [OptionWidth, hw1], by simp [OptionThumbWidth, ht1], ?_, ?_, ?_⟩
  · rw [hs]
    by_cases h : t > w
    · simp [h, hwne, fail]
    · simp [h, hwne]
  · intro h
    rw [hs]
    simp [h, hwne, fail]
  · intro n u hn
    unfold OptionThumbWidth at hn ⊢
    split
    · rfl
    · rename_i hc; simp [hc] at hn

/-- C11 at width 800: a thumb width of 801 is rejected, one of 800 is accepted. -/
theorem C11_cross_check_explicit_width_witness :
    (setOptions [] [some (OptionWidth 800), some (OptionThumbWidth 801)]).2
      = some (.arg ⟨"thumbWidth", "must be between 50 and width param value"⟩) ∧
    (setOptions [] [some (OptionWidth 800), some (OptionThumbWidth 800)]).2 = none :=
  ⟨(C11_cross_check_explicit_width [] 800 801 (by decide) (by decide)).2.2.2.1 (by decide),
    by decide⟩

/-! ## Keys that an option leaves alone -/

/-- A built-in option changes no key but its own, whether it succeeds or fails. -/
theorem builtin_frame (S : Strings) (o : Builtin) (v : Values) (k : String)
    (hk : k ≠ o.key) : (o.option S v).1.lookup k = v.lookup k := by
  rcases builtin_shape S o with ⟨e, he⟩ | hno | ⟨value, hset⟩
  · rw [he]
  · rw [hno]
  · rw [hset, lookup_Set]; simp [hk]

theorem applyAll_cons (f : OptionFn) (rest : List OptionFn) (v : Values) :
    applyAll (f :: rest) v = applyAll rest (f v).1 := rfl

theorem applyOpts_all (opts : List OptionFn) (v : Values) (h : allSucceed opts v) :
    applyOpts (opts.map some) v = (applyAll opts v, none) := by
  have := applyOpts_append opts [] v h
  simpa [applyOpts] using this

/-- Built-in options with other keys leave a key as it is. -/
theorem applyAll_frame (S : Strings) (opts : List Builtin) (v : Values) (k : String)
    (hk : ∀ o ∈ opts, o.key ≠ k) :
    (applyAll (opts.map fun o => o.option S) v).lookup k = v.lookup k := by
  induction opts generalizing v with
  | nil => rfl
  | cons o rest ih =>
    rw [List.map_cons, applyAll_cons,
      ih _ (fun o2 h2 => hk o2 (List.mem_cons_of_mem _ h2)),
      builtin_frame S o v k (fun e => hk o (List.mem_cons_self _ _) e.symm)]

theorem thumbWidth_of_key (o : Builtin) (h : o.key = "thumbWidth") :
    ∃ n, o = .ThumbWidth n := by
  cases o <;> first | exact ⟨_, rfl⟩ | (simp [Builtin.key] at h)

theorem width_of_key (o : Builtin) (h : o.key = "width") : ∃ n, o = .Width n := by
  cases o <;> first | exact ⟨_, rfl⟩ | (simp [Builtin.key] at h)

theorem applyAll_keeps (opts : List OptionFn) (v : Values) (k : String)
    (hk : ∀ f ∈ opts, Keeps f k) : (applyAll opts v).lookup k = v.lookup k := by
  induction opts generalizing v with
  | nil => rfl
  | cons f rest ih =>
    rw [applyAll_cons, ih _ (fun g hg => hk g (List.mem_cons_of_mem _ hg)),
      hk f (List.mem_cons_self _ _) v]

theorem OptionThumbWidth_keeps_width (t : Int) : Keeps (OptionThumbWidth t) "width" := by
  intro u
  unfold OptionThumbWidth
  split
  · rfl
  · simp only []; rw [lookup_Set]; simp

/-- When every option of a succeeding list is `OptionThumbWidth(t)` or leaves
`thumbWidth` alone, and the list has `OptionThumbWidth(t)` (or the map holds that
value already), the map ends with `thumbWidth` at the rendering of `t`. -/
theorem applyAll_thumbWidth (t : Int) (opts : List OptionFn) (v : Values)
    (hall : allSucceed opts v)
    (hother : ∀ f ∈ opts, f = OptionThumbWidth t ∨ Keeps f "thumbWidth")
    (hhas : OptionThumbWidth t ∈ opts ∨ v.lookup "thumbWidth" = some [Sprintf_d t]) :
    (applyAll opts v).lookup "thumbWidth" = some [Sprintf_d t] := by
  induction opts generalizing v with
  | nil =>
    rcases hhas with h | h
    · exact absurd h (List.not_mem_nil _)
    · exact h
  | cons f rest ih =>
    obtain ⟨h1, h2⟩ := hall
    rw [applyAll_cons]
    apply ih _ h2 (fun g hg => hother g (List.mem_cons_of_mem _ hg))
    have hset : f = OptionThumbWidth t → (f v).1.lookup "thumbWidth" = some [Sprintf_d t] := by
      intro hf
      subst hf
      unfold OptionThumbWidth at h1 ⊢
      split at h1
      · simp [fail] at h1
      · rename_i hc; simp only [hc, if_false]; rw [lookup_Set]; simp
    rcases hother f (List.mem_cons_self _ _) with hf | hf
    · exact Or.inr (hset hf)
    · rcases hhas with h | h
      · rcases List.mem_cons.mp h with h3 | h3
        · exact Or.inr (hset h3.symm)
        · exact Or.inl h3
      · right; rw [hf v]; exact h

theorem applyAll_append (a b : List OptionFn) (v : Values) :
    applyAll (a ++ b) v = applyAll b (applyAll a v) := by
  simp [applyAll, List.foldl_append]

/-- C12, as stated, fails when a later thumb-width option follows: the list
`OptionThumbWidth(900), OptionThumbWidth(100)` contains `OptionThumbWidth(900)` and
no `OptionWidth`, all options succeed and 900 > 800, yet `setOptions` returns
`nil`, because the comparison reads the final value 100. -/
theorem C12_counterexample :
    ¬ (∀ (S : Strings) (t : Int) (opts : List Builtin) (v : Values),
        50 ≤ t ∧ t ≤ 3000 → v.lookup "width" = none → Builtin.ThumbWidth t ∈ opts →
        (∀ o ∈ opts, o.key ≠ "width") → allSucceed (opts.map fun o => o.option S) v →
        ((setOptions v (opts.map fun o => some (o.option S))).2 ≠ none ↔ t > 800)) := by
  intro h
  have h1 := h asciiStrings 900 [.ThumbWidth 900, .ThumbWidth 100] [] (by decide) rfl
    (List.mem_cons_self _ _)
    (by
      intro o ho
      simp only [List.mem_cons, List.mem_singleton, List.not_mem_nil, or_false] at ho
      rcases ho with rfl | rfl <;> decide)
    ⟨by decide, by decide, trivial⟩
  exact absurd (h1.2 (by decide)) (by decide)

/-- C12, amended: on a set without a width key, for `t` in 50..3000, `setOptions`
with a list of succeeding options in which `OptionThumbWidth(t)` is the last option
that writes `thumbWidth` (the options behind it leave `thumbWidth` alone; the ones
before it may be other thumb-width options) and no option writes `width` returns
an error exactly when `t > 800`, and the error is
`ArgError{"thumbWidth", "must be between 50 and width param value"}`;
`OptionThumbWidth(t)` alone succeeds for every such `t`, also above 800. Every
built-in option other than `OptionWidth` leaves `width` alone, and every one other
than `OptionThumbWidth` leaves `thumbWidth` alone. -/
theorem C12_cross_check_default_width (t : Int) (pre post : List OptionFn) (v : Values)
    (ht : 50 ≤ t ∧ t ≤ 3000) (hv : v.lookup "width" = none)
    (hpre : ∀ f ∈ pre, Keeps f "width")
    (hpost : ∀ f ∈ post, Keeps f "width" ∧ Keeps f "thumbWidth")
    (hall : allSucceed (pre ++ OptionThumbWidth t :: post) v) :
    ((setOptions v ((pre ++ OptionThumbWidth t :: post).map some)).2 ≠ none ↔ t > 800) ∧
    (t > 800 → (setOptions v ((pre ++ OptionThumbWidth t :: post).map some)).2
      = some (.arg ⟨"thumbWidth", "must be between 50 and width param value"⟩)) ∧
    (OptionThumbWidth t v).2 = none ∧
    (∀ (S : Strings) (o : Builtin),
      (o.key ≠ "width" → Keeps (o.option S) "width") ∧
      (o.key ≠ "thumbWidth" → Keeps (o.option S) "thumbWidth")) := by
  have ht1 : ¬ (t < MinThumbWidth ∨ t > MaxSize) := by
    simp only [MinThumbWidth, MaxSize]; omega
  have hT : ∀ u, OptionThumbWidth t u = (u.Set "thumbWidth" (Sprintf_d t), none) := by
    intro u; simp [OptionThumbWidth, ht1]
  have hloop := applyOpts_all _ v hall
  have hs := setOptions_of_ok v _ _ hloop
  have hfinal : applyAll (pre ++ OptionThumbWidth t :: post) v
      = applyAll post ((applyAll pre v).Set "thumbWidth" (Sprintf_d t)) := by
    rw [applyAll_append, applyAll_cons, hT]
  have hlw : (applyAll (pre ++ OptionThumbWidth t :: post) v).lookup "width" = none := by
    rw [hfinal, applyAll_keeps post _ "width" (fun f hf => (hpost f hf).1), lookup_Set,
      applyAll_keeps pre v "width" hpre]
    simpa using hv
  have hlt : (applyAll (pre ++ OptionThumbWidth t :: post) v).lookup "thumbWidth"
      = some [Sprintf_d t] := by
    rw [hfinal, applyAll_keeps post _ "thumbWidth" (fun f hf => (hpost f hf).2), lookup_Set]
    simp
  have hgw := Get_of_lookup_none _ _ hlw
  have hgt := Get_of_lookup _ _ _ hlt
  have hz : atoiOrZero "" = 0 := by decide
  rw [hgw, hgt, hz, atoiOrZero_Sprintf_d t (by omega) ht.2] at hs
  refine ⟨?_, ?_, by simp [OptionThumbWidth, ht1], ?_⟩
  · rw [hs]
    by_cases h : t > 800
    · simp [h, DefaultWidth, fail]
    · simp [h, DefaultWidth]
  · intro h
    rw [hs]
    simp [h, DefaultWidth, fail]
  · intro S o
    exact ⟨fun h1 u => builtin_frame S o u "width" (fun e => h1 e.symm),
      fun h2 u => builtin_frame S o u "thumbWidth" (fun e => h2 e.symm)⟩

/-- C12, amended, at `OptionThumbWidth(900), OptionThumbWidth(801), OptionQuality(85)`:
the last thumb width, 801, is accepted by the option and rejected by `setOptions`;
with 100 as the last thumb width the earlier 900 does not matter. -/
theorem C12_cross_check_default_width_witness :
    (setOptions [] [some (OptionThumbWidth 900), some (OptionThumbWidth 801),
        some (OptionQuality 85)]).2
      = some (.arg ⟨"thumbWidth", "must be between 50 and width param value"⟩) ∧
    (OptionThumbWidth 801 []).2 = none ∧
    (setOptions [] [some (OptionThumbWidth 900), some (OptionThumbWidth 100)]).2 = none :=
  ⟨(C12_cross_check_default_width 801 [OptionThumbWidth 900] [OptionQuality 85] []
      (by decide) rfl
      (by
        intro f hf
        rw [List.mem_singleton.mp hf]
        exact OptionThumbWidth_keeps_width 900)
      (by
        intro f hf
        rw [List.mem_singleton.mp hf]
        exact ⟨fun u => builtin_frame asciiStrings (.Quality 85) u "width" (by decide),
          fun u => builtin_frame asciiStrings (.Quality 85) u "thumbWidth" (by decide)⟩)
      ⟨by decide, by decide, by decide, trivial⟩).2.1 (by decide),
    by decide, by decide⟩

/-! ## The invariant of a built query -/

theorem applyOpts_preserves (P : Values → Prop) (opts : List (Option OptionFn))
    (hP : ∀ f, some f ∈ opts → ∀ u, P u → P (f u).1) (v : Values) (hv : P v) :
    P (applyOpts opts v).1 := by
  induction opts generalizing v with
  | nil => exact hv
  | cons o rest ih =>
    cases o with
    | none => exact hv
    | some f =>
      have hf := hP f (List.mem_cons_self _ _) v hv
      simp only [applyOpts]
      rcases hfv : f v with ⟨v1, _ | e⟩
      · rw [hfv] at hf
        exact ih (fun g hg => hP g (List.mem_cons_of_mem _ hg)) v1 hf
      · rw [hfv] at hf; exact hf

theorem builtin_width_rendered (S : Strings) (o : Builtin) (v : Values)
    (h : RenderedIn v "width" 100 3000) :
    RenderedIn (o.option S v).1 "width" 100 3000 := by
  by_cases hk : o.key = "width"
  · obtain ⟨n, rfl⟩ := width_of_key o hk
    simp only [Builtin.option, OptionWidth]
    split
    · exact h
    · rename_i hc
      simp only [MinSize, MaxSize] at hc
      exact Or.inr ⟨n, by omega, by omega, by rw [lookup_Set]; simp⟩
  · unfold RenderedIn
    rw [builtin_frame S o v "width" (fun e => hk e.symm)]
    exact h

theorem builtin_thumbWidth_rendered (S : Strings) (o : Builtin) (v : Values)
    (h : RenderedIn v "thumbWidth" 50 3000) :
    RenderedIn (o.option S v).1 "thumbWidth" 50 3000 := by
  by_cases hk : o.key = "thumbWidth"
  · obtain ⟨n, rfl⟩ := thumbWidth_of_key o hk
    simp only [Builtin.option, OptionThumbWidth]
    split
    · exact h
    · rename_i hc
      simp only [MinThumbWidth, MaxSize] at hc
      exact Or.inr ⟨n, by omega, by omega, by rw [lookup_Set]; simp⟩
  · unfold RenderedIn
    rw [builtin_frame S o v "thumbWidth" (fun e => hk e.symm)]
    exact h

/-- After any list of built-in options, applied to a map without `width` and
`thumbWidth`, the two keys are absent or hold the rendering of an accepted
argument. -/
theorem builtins_rendered (S : Strings) (opts : List Builtin) (v : Values)
    (hw : v.lookup "width" = none) (ht : v.lookup "thumbWidth" = none) :
    RenderedIn (applyOpts (opts.map fun o => some (o.option S)) v).1 "width" 100 3000 ∧
    RenderedIn (applyOpts (opts.map fun o => some (o.option S)) v).1 "thumbWidth" 50 3000 := by
  refine applyOpts_preserves
    (fun q => RenderedIn q "width" 100 3000 ∧ RenderedIn q "thumbWidth" 50 3000) _ ?_ v
    ⟨Or.inl hw, Or.inl ht⟩
  intro f hf u hu
  obtain ⟨o, _, ho⟩ := List.mem_map.mp hf
  have hfo : f = o.option S := (Option.some.inj ho).symm
  subst hfo
  exact ⟨builtin_width_rendered S o u hu.1, builtin_thumbWidth_rendered S o u hu.2⟩

/-- C13: for every list of built-in options applied by `setOptions` to a set that
has no `width` and no `thumbWidth` key, if no error is returned and the resulting
set contains `thumbWidth`, then its value is the rendering of an integer `t` that
is at most the integer rendered under `width` when the set contains `width`, and
at most 800 when it does not. The list may contain any number of width and
thumb-width options in any order. -/
theorem C13_built_query_invariant (S : Strings) (opts : List Builtin) (v q : Values)
    (hw : v.lookup "width" = none) (ht : v.lookup "thumbWidth" = none)
    (hok : setOptions v (opts.map fun o => some (o.option S)) = (q, none))
    (ts : List String) (hts : q.lookup "thumbWidth" = some ts) :
    ∃ t : Int, ts = [Sprintf_d t] ∧ 50 ≤ t ∧ t ≤ 3000 ∧
      (∀ ws, q.lookup "width" = some ws → ∃ w : Int, ws = [Sprintf_d w] ∧ t ≤ w) ∧
      (q.lookup "width" = none → t ≤ 800) := by
  have hloop := applyOpts_of_setOptions_ok v q _ hok
  have hinv := builtins_rendered S opts v hw ht
  rw [hloop] at hinv
  obtain ⟨hiw, hit⟩ := hinv
  have hs := setOptions_of_ok v q _ hloop
  rw [hok] at hs
  rcases hit with h | ⟨t, ht1, ht2, htl⟩
  · simp only [] at h; rw [h] at hts; exact absurd hts (by simp)
  · simp only [] at htl
    have hts2 : ts = [Sprintf_d t] := by rw [htl] at hts; exact (Option.some.inj hts).symm
    have hgt : q.Get "thumbWidth" = Sprintf_d t := Get_of_lookup _ _ _ htl
    rw [hgt, atoiOrZero_Sprintf_d t (by omega) ht2] at hs
    refine ⟨t, hts2, ht1, ht2, ?_, ?_⟩
    · intro ws hws
      rcases hiw with h | ⟨w, hw1, hw2, hwl⟩
      · simp only [] at h; rw [h] at hws; exact absurd hws (by simp)
      · simp only [] at hwl
        have hgw : q.Get "width" = Sprintf_d w := Get_of_lookup _ _ _ hwl
        rw [hgw, atoiOrZero_Sprintf_d w (by omega) hw2] at hs
        refine ⟨w, by rw [hwl] at hws; exact (Option.some.inj hws).symm, ?_⟩
        by_contra hlt
        have hc : (w ≠ 0 ∧ t > w) ∨ (w = 0 ∧ t > DefaultWidth) := Or.inl ⟨by omega, by omega⟩
        rw [if_pos hc] at hs
        simp [fail] at hs
    · intro hnone
      have hgw : q.Get "width" = "" := Get_of_lookup_none _ _ hnone
      have hz : atoiOrZero "" = 0 := by decide
      rw [hgw, hz] at hs
      by_contra hlt
      have hc : ((0 : Int) ≠ 0 ∧ t > 0) ∨ ((0 : Int) = 0 ∧ t > DefaultWidth) :=
        Or.inr ⟨rfl, by simp only [DefaultWidth]; omega⟩
      rw [if_pos hc] at hs
      simp [fail] at hs

/-- C13 at a list with two width and two thumb-width options: the final values
640 and 600 pass, and 600 is what the set holds. -/
theorem C13_built_query_invariant_witness :
    ∃ t : Int, ["600"] = [Sprintf_d t] ∧ 50 ≤ t ∧ t ≤ 3000 ∧
      (∀ ws, Values.lookup [("thumbWidth", ["600"]), ("width", ["640"])] "width" = some ws →
        ∃ w : Int, ws = [Sprintf_d w] ∧ t ≤ w) ∧
      (Values.lookup [("thumbWidth", ["600"]), ("width", ["640"])] "width" = none → t ≤ 800) :=
  C13_built_query_invariant asciiStrings
    [.ThumbWidth 2000, .Width 1000, .ThumbWidth 600, .Width 640] []
    [("thumbWidth", ["600"]), ("width", ["640"])] rfl rfl (by decide) ["600"] (by decide)

/-! ## `request`, `Get` and `GetRaw` -/

theorem Get_congr (v u : Values) (k : String) (h : v.lookup k = u.lookup k) :
    v.Get k = u.Get k := by
  simp [Values.Get, h]

theorem applyOpts_append_ok (opts more : List (Option OptionFn)) (v q : Values)
    (h : applyOpts opts v = (q, none)) :
    applyOpts (opts ++ more) v = applyOpts more q := by
  induction opts generalizing v with
  | nil => simp only [applyOpts, Prod.mk.injEq, and_true] at h; rw [h]; rfl
  | cons o rest ih =>
    cases o with
    | none => simp [applyOpts] at h
    | some f =>
      simp only [List.cons_append, applyOpts] at h ⊢
      rcases hfv : f v with ⟨v1, _ | e⟩
      · rw [hfv] at h; simp only [] at h ⊢; exact ih v1 h
      · rw [hfv] at h; simp at h

theorem store_sent (rt : Runtime) (w : World) (filename : String) (status : Int)
    (body : Bytes) : (store rt w filename status body).1.sent = w.sent := by
  unfold store
  repeat' split
  all_goals rfl

/-- The world after `request` has handed the parameter set `q` to the transport. -/
theorem request_of_ok (c : Client) (w : World) (url : String)
    (opts : List (Option OptionFn)) (q : Values) (hurl : url ≠ "")
    (hreq : c.NewRequest = none) (hopts : setOptions (baseQuery c url) opts = (q, none)) :
    request c w url opts =
      match c.Do q.Encode with
      | .failed resp b err => ({ w with sent := w.sent ++ [q] }, .failed resp b (.other err))
      | .done status b => ({ w with sent := w.sent ++ [q] }, .ok status b) := by
  unfold baseQuery at hopts
  simp only [request, hurl, if_false, newRequest, hreq, hopts]

theorem request_sent_of_ok (c : Client) (w : World) (url : String)
    (opts : List (Option OptionFn)) (q : Values) (hurl : url ≠ "")
    (hreq : c.NewRequest = none) (hopts : setOptions (baseQuery c url) opts = (q, none)) :
    (request c w url opts).1.sent = w.sent ++ [q] := by
  rw [request_of_ok c w url opts q hurl hreq hopts]
  split <;> rfl

theorem Get_sent (rt : Runtime) (c : Client) (w : World) (url filename : String)
    (opts : List (Option OptionFn)) (hfile : filename ≠ "") :
    (Get rt c w url filename opts).1.sent
      = (request c w url (opts ++ [some (OptionErrorsOutputFormat rt.strings "JSON"),
          some (OptionImageOutputFormat rt.strings "image")])).1.sent := by
  simp only [Get, hfile, if_false]
  split
  · rename_i h; rw [h]
  · rename_i h; rw [h]
  · rename_i h; rw [h]
    split
    · split
      · rfl
      · exact store_sent _ _ _ _ _
    · exact store_sent _ _ _ _ _

/-- The parameter set that `Get` builds from the caller's options: the two forced
formats on top of what the caller's options produced. -/
theorem setOptions_forced (S : Strings) (v q1 : Values) (opts : List (Option OptionFn))
    (hU : S.ToUpper "JSON" = "JSON") (hL : S.ToLower "image" = "image")
    (hopts : setOptions v opts = (q1, none)) :
    setOptions v (opts ++ [some (OptionErrorsOutputFormat S "JSON"),
        some (OptionImageOutputFormat S "image")])
      = ((q1.Set "errorsOutputFormat" "JSON").Set "imageOutputFormat" "image", none) := by
  have hloop := applyOpts_of_setOptions_ok v q1 opts hopts
  have h1 : index errorsOutputFormats "JSON" = true := by decide
  have h2 : index imageOutputFormats "image" = true := by decide
  have hloop2 : applyOpts (opts ++ [some (OptionErrorsOutputFormat S "JSON"),
        some (OptionImageOutputFormat S "image")]) v
      = ((q1.Set "errorsOutputFormat" "JSON").Set "imageOutputFormat" "image", none) := by
    rw [applyOpts_append_ok opts _ v q1 hloop]
    simp [applyOpts, OptionErrorsOutputFormat, OptionImageOutputFormat, hU, hL, h1, h2]
  have hs1 := setOptions_of_ok v q1 opts hloop
  rw [hopts] at hs1
  have hs2 := setOptions_of_ok v _ _ hloop2
  have hgw : ((q1.Set "errorsOutputFormat" "JSON").Set "imageOutputFormat" "image").Get "width"
      = q1.Get "width" :=
    Get_congr _ _ _ (by rw [lookup_Set, lookup_Set]; simp)
  have hgt : ((q1.Set "errorsOutputFormat" "JSON").Set "imageOutputFormat" "image").Get
      "thumbWidth" = q1.Get "thumbWidth" :=
    Get_congr _ _ _ (by rw [lookup_Set, lookup_Set]; simp)
  rw [hgw, hgt] at hs2
  rw [hs2]
  split
  · rename_i hc; rw [if_pos hc] at hs1; simp [fail] at hs1
  · rfl

/-- C14: file mode forces the response format. For a non-empty URL and filename
and caller options that `setOptions` applies without error (to the parameter set
`q1`), the query that `Get` hands to the transport has `errorsOutputFormat` = JSON
and `imageOutputFormat` = image, whatever the caller passed for these keys, and
every other key is as in `q1`. -/
theorem C14_file_mode_forces_format (rt : Runtime) (c : Client) (w : World)
    (url filename : String) (opts : List (Option OptionFn)) (q1 : Values)
    (hurl : url ≠ "") (hfile : filename ≠ "") (hreq : c.NewRequest = none)
    (hU : rt.strings.ToUpper "JSON" = "JSON") (hL : rt.strings.ToLower "image" = "image")
    (hopts : setOptions (baseQuery c url) opts = (q1, none)) :
    ∃ q, (Get rt c w url filename opts).1.sent = w.sent ++ [q] ∧
      q.lookup "errorsOutputFormat" = some ["JSON"] ∧
      q.lookup "imageOutputFormat" = some ["image"] ∧
      ∀ k, k ≠ "errorsOutputFormat" → k ≠ "imageOutputFormat" →
        q.lookup k = q1.lookup k := by
  refine ⟨(q1.Set "errorsOutputFormat" "JSON").Set "imageOutputFormat" "image", ?_, ?_, ?_, ?_⟩
  · rw [Get_sent rt c w url filename opts hfile]
    exact request_sent_of_ok c w url _ _ hurl hreq
      (setOptions_forced rt.strings _ q1 opts hU hL hopts)
  · rw [lookup_Set, lookup_Set]; simp
  · rw [lookup_Set]; simp
  · intro k hk1 hk2
    rw [lookup_Set, lookup_Set]; simp [hk1, hk2]

/-- C14 at a caller who asks for XML errors and a base64 image: the request that
is sent asks for JSON and image, and keeps the caller's width. -/
theorem C14_file_mode_forces_format_witness :
    ∃ q, (Get (plainRuntime (.error "no JSON")) (answering "K" []) ⟨[], []⟩ "u" "f"
        [some (OptionErrorsOutputFormat asciiStrings "XML"),
          some (OptionImageOutputFormat asciiStrings "base64"),
          some (OptionWidth 640)]).1.sent = [] ++ [q] ∧
      q.lookup "errorsOutputFormat" = some ["JSON"] ∧
      q.lookup "imageOutputFormat" = some ["image"] ∧
      ∀ k, k ≠ "errorsOutputFormat" → k ≠ "imageOutputFormat" →
        q.lookup k = Values.lookup [("apiKey", ["K"]), ("url", ["u"]),
          ("errorsOutputFormat", ["XML"]), ("imageOutputFormat", ["base64"]),
          ("width", ["640"])] k :=
  C14_file_mode_forces_format (plainRuntime (.error "no JSON")) (answering "K" [])
    ⟨[], []⟩ "u" "f" _ _ (by decide) (by decide) rfl (by decide) (by decide) (by decide)

theorem builtin_key_ne (o : Builtin) : o.key ≠ "apiKey" ∧ o.key ≠ "url" := by
  cases o <;> simp [Builtin.key]

/-- Built-in options leave `apiKey` and `url` as they are. -/
theorem applyOpts_builtin_base (opts : List (Option OptionFn)) (v : Values)
    (hb : ∀ f, some f ∈ opts → IsBuiltin f) :
    (applyOpts opts v).1.lookup "apiKey" = v.lookup "apiKey" ∧
    (applyOpts opts v).1.lookup "url" = v.lookup "url" := by
  refine applyOpts_preserves
    (fun q => q.lookup "apiKey" = v.lookup "apiKey" ∧ q.lookup "url" = v.lookup "url")
    opts ?_ v ⟨rfl, rfl⟩
  intro f hf u hu
  obtain ⟨S, o, rfl⟩ := hb f hf
  have hne := builtin_key_ne o
  exact ⟨by rw [builtin_frame S o u "apiKey" (fun e => hne.1 e.symm)]; exact hu.1,
    by rw [builtin_frame S o u "url" (fun e => hne.2 e.symm)]; exact hu.2⟩

theorem request_sent_cases (c : Client) (w : World) (url : String)
    (opts : List (Option OptionFn)) :
    (request c w url opts).1.sent = w.sent ∨
    (url ≠ "" ∧ (request c w url opts).1.sent
      = w.sent ++ [(applyOpts opts (baseQuery c url)).1]) := by
  by_cases hurl : url = ""
  · left; simp [request, hurl]
  · cases hreq : c.NewRequest with
    | some e => left; simp [request, hurl, newRequest, hreq]
    | none =>
      rcases hs : setOptions (baseQuery c url) opts with ⟨q, _ | e⟩
      · right
        refine ⟨hurl, ?_⟩
        rw [request_sent_of_ok c w url opts q hurl hreq hs, ← setOptions_fst, hs]
      · left
        unfold baseQuery at hs
        simp [request, hurl, newRequest, hreq, hs]

/-- C15, as stated, fails for an option written by the caller: an option that
sets `apiKey` replaces the key of the client in the request that is sent. -/
theorem C15_counterexample :
    ¬ (∀ (c : Client) (w : World) (url : String) (opts : List (Option OptionFn))
        (q : Values), url ≠ "" → (request c w url opts).1.sent = w.sent ++ [q] →
        q.lookup "apiKey" = some [c.apiKey] ∧ q.lookup "url" = some [url]) := by
  intro h
  have h1 := (h (answering "K" []) ⟨[], []⟩ "u" [some overrideKey]
    [("apiKey", ["other"]), ("url", ["u"])] (by decide) (by decide)).1
  exact absurd h1 (by decide)

/-- C15, amended: the API key is always injected and no built-in option can
change it. For every client key, every non-empty target URL and every list of
built-in options (`nil` entries allowed), the parameter set of a request that
`request` (and so `GetRaw`) or `Get` hands to the transport has `apiKey` at exactly
the key of the client and `url` at the target URL. -/
theorem C15_api_key_injected (rt : Runtime) (c : Client) (w : World)
    (url filename : String) (opts : List (Option OptionFn)) (q : Values)
    (hb : ∀ f, some f ∈ opts → IsBuiltin f)
    (hsent : (request c w url opts).1.sent = w.sent ++ [q] ∨
      (GetRaw c w url opts).1.sent = w.sent ++ [q] ∨
      (Get rt c w url filename opts).1.sent = w.sent ++ [q]) :
    q.lookup "apiKey" = some [c.apiKey] ∧ q.lookup "url" = some [url] := by
  have key : ∀ (os : List (Option OptionFn)), (∀ f, some f ∈ os → IsBuiltin f) →
      (request c w url os).1.sent = w.sent ++ [q] →
      q.lookup "apiKey" = some [c.apiKey] ∧ q.lookup "url" = some [url] := by
    intro os hos hs
    rcases request_sent_cases c w url os with h1 | ⟨_, h1⟩
    · rw [h1] at hs
      have := congrArg List.length hs
      simp at this
    · rw [h1] at hs
      have hq : (applyOpts os (baseQuery c url)).1 = q := by
        have := List.append_cancel_left hs
        simpa using this
      have hbase := applyOpts_builtin_base os (baseQuery c url) hos
      rw [hq] at hbase
      refine ⟨hbase.1.trans ?_, hbase.2.trans ?_⟩
      · unfold baseQuery; rw [lookup_Set, lookup_Set]; simp
      · unfold baseQuery; rw [lookup_Set]; simp
  have hraw : (GetRaw c w url opts).1 = (request c w url opts).1 := by
    unfold GetRaw
    split
    · rename_i h; rw [h]
    · rename_i h; rw [h]
    · rename_i h; rw [h]; split <;> rfl
  rcases hsent with h | h | h
  · exact key opts hb h
  · rw [hraw] at h; exact key opts hb h
  · by_cases hfile : filename = ""
    · simp [Get, hfile] at h
    · rw [Get_sent rt c w url filename opts hfile] at h
      refine key _ ?_ h
      intro f hf
      rcases List.mem_append.mp hf with h2 | h2
      · exact hb f h2
      · simp only [List.mem_cons, Option.some.injEq, List.mem_singleton, List.not_mem_nil,
          or_false] at h2
        rcases h2 with rfl | rfl
        · exact ⟨rt.strings, .ErrorsOutputFormat "JSON", rfl⟩
        · exact ⟨rt.strings, .ImageOutputFormat "image", rfl⟩

/-- C15, amended, at a request with two built-in options. -/
theorem C15_api_key_injected_witness :
    Values.lookup [("apiKey", ["K"]), ("url", ["u"]), ("width", ["640"]), ("ua", ["apiKey"])]
      "apiKey" = some ["K"] ∧
    Values.lookup [("apiKey", ["K"]), ("url", ["u"]), ("width", ["640"]), ("ua", ["apiKey"])]
      "url" = some ["u"] :=
  C15_api_key_injected (plainRuntime (.error "no JSON")) (answering "K" []) ⟨[], []⟩ "u" "f"
    [some (OptionWidth 640), some (OptionUA "apiKey")] _
    (by
      intro f hf
      simp only [List.mem_cons, Option.some.injEq, List.mem_singleton, List.not_mem_nil,
        or_false] at hf
      rcases hf with rfl | rfl
      · exact ⟨asciiStrings, .Width 640, rfl⟩
      · exact ⟨asciiStrings, .UA "apiKey", rfl⟩)
    (Or.inl (by decide))

/-- C16: the empty-URL check precedes option processing. For every option list
(with `nil` options, rejected arguments or conflicting widths), `request` and
`GetRaw` called with the empty target URL return a `nil` response and
`ArgError{"URL", "can not be empty"}`; the result does not depend on the options,
and nothing is handed to the transport. -/
theorem C16_empty_url_first (c : Client) (w : World) (opts : List (Option OptionFn)) :
    request c w "" opts = (w, .invalid (.arg ⟨"URL", "can not be empty"⟩)) ∧
    GetRaw c w "" opts = (w, .invalid (.arg ⟨"URL", "can not be empty"⟩)) ∧
    (GetRaw c w "" opts).2.err.map GoError.Error
      = some "invalid argument: \"URL\" can not be empty" ∧
    (GetRaw c w "" opts).1.sent = w.sent := by
  have h1 : request c w "" opts = (w, .invalid (.arg ⟨"URL", "can not be empty"⟩)) := by
    simp [request]
  have h2 : GetRaw c w "" opts = (w, .invalid (.arg ⟨"URL", "can not be empty"⟩)) := by
    simp [GetRaw, h1]
  exact ⟨h1, h2, by rw [h2]; rfl, by rw [h2]⟩

/-- C17, as stated, fails at the empty filename: `Get` checks the filename before
the URL, so with both empty the error names the filename. -/
theorem C17_counterexample :
    ¬ (∀ (rt : Runtime) (c : Client) (w : World) (filename : String)
        (opts : List (Option OptionFn)),
        (Get rt c w "" filename opts).2 = some (.arg ⟨"URL", "can not be empty"⟩)) := by
  intro h
  have h1 := h (plainRuntime (.error "no JSON")) (answering "K" []) ⟨[], []⟩ "" []
  exact absurd h1 (by decide)

/-- C17, amended: given an empty target URL, `GetRaw` for every option list, and
`Get` for every non-empty filename and every option list, return
`ArgError{"URL", "can not be empty"}` and hand nothing to the transport. -/
theorem C17_empty_url_both_modes (rt : Runtime) (c : Client) (w : World)
    (filename : String) (opts : List (Option OptionFn)) (hfile : filename ≠ "") :
    Get rt c w "" filename opts = (w, some (.arg ⟨"URL", "can not be empty"⟩)) ∧
    GetRaw c w "" opts = (w, .invalid (.arg ⟨"URL", "can not be empty"⟩)) := by
  refine ⟨?_, ?_⟩
  · simp [Get, hfile, request]
  · simp [GetRaw, request]

/-- C17, amended, at a list with a `nil` option and a transport that would
answer. -/
theorem C17_empty_url_both_modes_witness :
    Get (plainRuntime (.error "no JSON")) (answering "K" [1]) ⟨[], []⟩ "" "f" [none]
      = (⟨[], []⟩, some (.arg ⟨"URL", "can not be empty"⟩)) ∧
    GetRaw (answering "K" [1]) ⟨[], []⟩ "" [none]
      = (⟨[], []⟩, .invalid (.arg ⟨"URL", "can not be empty"⟩)) :=
  C17_empty_url_both_modes (plainRuntime (.error "no JSON")) (answering "K" [1]) ⟨[], []⟩
    "f" [none] (by decide)

/-- C18: for every target URL and every option list, `Get` with the empty filename
returns `ArgError{"filename", "can not be empty"}`; the result does not depend on
the options, nothing is handed to the transport and no file is created. -/
theorem C18_empty_filename (rt : Runtime) (c : Client) (w : World) (url : String)
    (opts : List (Option OptionFn)) :
    Get rt c w url "" opts = (w, some (.arg ⟨"filename", "can not be empty"⟩)) ∧
    (Get rt c w url "" opts).2.map GoError.Error
      = some "invalid argument: \"filename\" can not be empty" ∧
    (Get rt c w url "" opts).1.sent = w.sent ∧
    (Get rt c w url "" opts).1.files = w.files := by
  have h : Get rt c w url "" opts = (w, some (.arg ⟨"filename", "can not be empty"⟩)) := by
    simp [Get]
  exact ⟨h, by rw [h]; rfl, by rw [h], by rw [h]⟩

theorem fileContent_setFile (fs : List (String × Bytes)) (name : String) (content : Bytes) :
    fileContent (setFile fs name content) name = some content := by
  induction fs with
  | nil => simp [setFile, fileContent]
  | cons e rest ih =>
    obtain ⟨n, c0⟩ := e
    by_cases h : n = name
    · simp [setFile, fileContent, h]
    · simp [setFile, fileContent, h, ih]

theorem checkResponse_other (status : Int) (e : GoError)
    (h : checkResponse status = some e) : ∃ t, e = .other t := by
  unfold checkResponse at h
  split at h
  · simp at h
  · exact ⟨_, (Option.some.inj h).symm⟩

theorem store_not_api (rt : Runtime) (w : World) (filename : String) (status : Int)
    (body : Bytes) (e : ErrorMessage) :
    (store rt w filename status body).2 ≠ some (.api e) := by
  unfold store
  cases hch : checkResponse status with
  | some r =>
    obtain ⟨t, rfl⟩ := checkResponse_other status r hch
    simp
  | none =>
    simp only []
    repeat' split
    all_goals simp

/-- What `Get` does once the transport has answered with a status and a body. -/
theorem Get_of_done (rt : Runtime) (c : Client) (w : World) (url filename : String)
    (opts : List (Option OptionFn)) (q : Values) (status : Int) (body : Bytes)
    (hfile : filename ≠ "") (hurl : url ≠ "") (hreq : c.NewRequest = none)
    (hopts : setOptions (baseQuery c url)
      (opts ++ [some (OptionErrorsOutputFormat rt.strings "JSON"),
        some (OptionImageOutputFormat rt.strings "image")]) = (q, none))
    (hdo : c.Do q.Encode = .done status body) :
    Get rt c w url filename opts =
      match parse rt body with
      | .ok r =>
        if r.ErrorMessage.Message ≠ "" ∨ r.ErrorMessage.Code ≠ 0
        then ({ w with sent := w.sent ++ [q] },
          some (.api ⟨r.ErrorMessage.Code, r.ErrorMessage.Message⟩))
        else store rt { w with sent := w.sent ++ [q] } filename status body
      | .error _ => store rt { w with sent := w.sent ++ [q] } filename status body := by
  have hr := request_of_ok c w url _ q hurl hreq hopts
  rw [hdo] at hr
  simp only [Get, hfile, if_false, hr]

/-- C19: when the transport answers without error, with a 2xx status and a body
that parses as the error payload with code `code` and message `m`, `Get` returns
the `ErrorMessage` with exactly that code and message (text `API error: [code] m`)
exactly when the code is not 0 or the message is not empty, and then no file is
touched. With code 0 and an empty message the body is not an application error:
`Get` goes on to the status check (which passes), creates the file and writes the
body. -/
theorem C19_application_error_on_success (rt : Runtime) (c : Client) (w : World)
    (url filename : String) (opts : List (Option OptionFn)) (q : Values) (status code : Int)
    (m : String) (body : Bytes)
    (hfile : filename ≠ "") (hurl : url ≠ "") (hreq : c.NewRequest = none)
    (hopts : setOptions (baseQuery c url)
      (opts ++ [some (OptionErrorsOutputFormat rt.strings "JSON"),
        some (OptionImageOutputFormat rt.strings "image")]) = (q, none))
    (hdo : c.Do q.Encode = .done status body) (h2xx : 200 ≤ status ∧ status ≤ 299)
    (hparse : rt.Decode body = .ok ⟨code, m⟩) :
    ((Get rt c w url filename opts).2 = some (.api ⟨code, m⟩) ↔ code ≠ 0 ∨ m ≠ "") ∧
    (code ≠ 0 ∨ m ≠ "" →
      Get rt c w url filename opts
        = ({ w with sent := w.sent ++ [q] }, some (.api ⟨code, m⟩)) ∧
      (Get rt c w url filename opts).1.files = w.files ∧
      (Get rt c w url filename opts).2.map GoError.Error
        = some ("API error: [" ++ Sprintf_d code ++ "] " ++ m)) ∧
    (code = 0 ∧ m = "" →
      Get rt c w url filename opts
        = store rt { w with sent := w.sent ++ [q] } filename status body) ∧
    (code = 0 ∧ m = "" → rt.Create filename = none → rt.Write filename body = none →
      (Get rt c w url filename opts).2 = none ∧
      fileContent (Get rt c w url filename opts).1.files filename = some body) := by
  have hg := Get_of_done rt c w url filename opts q status body hfile hurl hreq hopts hdo
  have hp : parse rt body = .ok ⟨⟨code, m⟩⟩ := by simp [parse, hparse]
  rw [hp] at hg
  simp only [] at hg
  by_cases hc : m ≠ "" ∨ code ≠ 0
  · have hc2 : code ≠ 0 ∨ m ≠ "" := hc.symm
    rw [if_pos hc] at hg
    refine ⟨by simp [hg, hc2], fun _ => ⟨hg, by rw [hg], by rw [hg]; rfl⟩, ?_, ?_⟩
    · rintro ⟨h0, hm⟩; exact absurd hc (by simp [h0, hm])
    · rintro ⟨h0, hm⟩; exact absurd hc (by simp [h0, hm])
  · have hc2 : ¬ (code ≠ 0 ∨ m ≠ "") := fun h => hc h.symm
    rw [if_neg hc] at hg
    refine ⟨?_, fun h => absurd h hc2, fun _ => hg, ?_⟩
    · rw [hg]
      exact ⟨fun h => absurd h (store_not_api _ _ _ _ _ _), fun h => absurd h hc2⟩
    · intro _ hcr hwr
      rw [hg]
      have hch : checkResponse status = none := by simp [checkResponse, h2xx]
      simp [store, hch, hcr, hwr, fileContent_setFile]

/-- C19 at status 200 with a payload of code 499 (an application error, no file)
and with a payload of code 0 and no message (the body is written to the file). -/
theorem C19_application_error_on_success_witness :
    Get (plainRuntime (.ok ⟨499, "Test error message."⟩)) (answering "K" [123, 125])
        ⟨[], []⟩ "u" "f" []
      = (⟨[[("apiKey", ["K"]), ("url", ["u"]), ("errorsOutputFormat", ["JSON"]),
          ("imageOutputFormat", ["image"])]], []⟩,
        some (.api ⟨499, "Test error message."⟩)) ∧
    (Get (plainRuntime (.ok ⟨0, ""⟩)) (answering "K" [123, 125]) ⟨[], []⟩ "u" "f" []).2
      = none ∧
    fileContent
      (Get (plainRuntime (.ok ⟨0, ""⟩)) (answering "K" [123, 125]) ⟨[], []⟩ "u" "f" []).1.files
      "f" = some [123, 125] :=
  ⟨((C19_application_error_on_success (plainRuntime (.ok ⟨499, "Test error message."⟩))
      (answering "K" [123, 125]) ⟨[], []⟩ "u" "f" []
      [("apiKey", ["K"]), ("url", ["u"]), ("errorsOutputFormat", ["JSON"]),
        ("imageOutputFormat", ["image"])] 200 499 "Test error message." [123, 125]
      (by decide) (by decide) rfl (by decide) rfl (by decide) rfl).2.1
        (Or.inl (by decide))).1,
    by decide, by decide⟩

/-- C20: `GetRaw` performs no payload check. When the transport answers without
error and with a 2xx status, `GetRaw` returns a `nil` error and the response with
exactly the status and the bytes that the transport delivered, whatever the bytes
are: the result does not involve the JSON decoder. -/
theorem C20_GetRaw_no_payload_check (c : Client) (w : World) (url : String)
    (opts : List (Option OptionFn)) (q : Values) (status : Int) (body : Bytes)
    (hurl : url ≠ "") (hreq : c.NewRequest = none)
    (hopts : setOptions (baseQuery c url) opts = (q, none))
    (hdo : c.Do q.Encode = .done status body) (h2xx : 200 ≤ status ∧ status ≤ 299) :
    GetRaw c w url opts = ({ w with sent := w.sent ++ [q] }, .ok status body) ∧
    (GetRaw c w url opts).2.err = none := by
  have hr := request_of_ok c w url opts q hurl hreq hopts
  rw [hdo] at hr
  have hch : checkResponse status = none := by simp [checkResponse, h2xx]
  have hg : GetRaw c w url opts = ({ w with sent := w.sent ++ [q] }, .ok status body) := by
    simp only [GetRaw, hr, hch]
  exact ⟨hg, by rw [hg]; rfl⟩

/-- C20 at status 200 with the body `{}`, which `Get` would have to decode. -/
theorem C20_GetRaw_no_payload_check_witness :
    GetRaw (answering "K" [123, 125]) ⟨[], []⟩ "u" []
      = (⟨[[("apiKey", ["K"]), ("url", ["u"])]], []⟩, .ok 200 [123, 125]) :=
  (C20_GetRaw_no_payload_check (answering "K" [123, 125]) ⟨[], []⟩ "u" []
    [("apiKey", ["K"]), ("url", ["u"])] 200 [123, 125] (by decide) rfl (by decide) rfl
    (by decide)).1

/-! ## Classification of the response -/

theorem GetRaw_of_done (c : Client) (w : World) (url : String)
    (opts : List (Option OptionFn)) (q : Values) (status : Int) (body : Bytes)
    (hurl : url ≠ "") (hreq : c.NewRequest = none)
    (hopts : setOptions (baseQuery c url) opts = (q, none))
    (hdo : c.Do q.Encode = .done status body) :
    GetRaw c w url opts =
      match checkResponse status with
      | some respErr => ({ w with sent := w.sent ++ [q] }, .failed (some status) body respErr)
      | none => ({ w with sent := w.sent ++ [q] }, .ok status body) := by
  have hr := request_of_ok c w url opts q hurl hreq hopts
  rw [hdo] at hr
  simp only [GetRaw, hr]

theorem checkResponse_of_not_2xx (status : Int) (h : ¬ (200 ≤ status ∧ status ≤ 299)) :
    checkResponse status
      = some (.other ("API failed with status code: " ++ Sprintf_d status)) := by
  simp only [checkResponse, h, if_false]

theorem store_of_not_2xx (rt : Runtime) (w : World) (filename : String) (status : Int)
    (body : Bytes) (h : ¬ (200 ≤ status ∧ status ≤ 299)) :
    store rt w filename status body
      = (w, some (.other ("API failed with status code: " ++ Sprintf_d status))) := by
  simp only [store, checkResponse_of_not_2xx status h]

/-- C21, as stated, fails for `Get`: with status 499 and a body that is an error
payload with code 499, `Get` returns the application error, not the status
error. -/
theorem C21_counterexample :
    ¬ (∀ (rt : Runtime) (c : Client) (w : World) (url filename : String)
        (opts : List (Option OptionFn)) (q : Values) (status : Int) (body : Bytes),
        filename ≠ "" → url ≠ "" → c.NewRequest = none →
        setOptions (baseQuery c url)
          (opts ++ [some (OptionErrorsOutputFormat rt.strings "JSON"),
            some (OptionImageOutputFormat rt.strings "image")]) = (q, none) →
        c.Do q.Encode = .done status body → ¬ (200 ≤ status ∧ status ≤ 299) →
        (Get rt c w url filename opts).2.map GoError.Error
          = some ("API failed with status code: " ++ Sprintf_d status)) := by
  intro h
  have h1 := h (plainRuntime (.ok ⟨499, "Test error message."⟩)) (replying "K" 499 [123, 125])
    ⟨[], []⟩ "u" "f" []
    [("apiKey", ["K"]), ("url", ["u"]), ("errorsOutputFormat", ["JSON"]),
      ("imageOutputFormat", ["image"])] 499 [123, 125]
    (by decide) (by decide) rfl (by decide) rfl (by decide)
  exact absurd h1 (by decide)

/-- C21, amended: given a non-2xx status and no transport error, `GetRaw` returns
the status error "API failed with status code: <code>" for every body, and `Get`
returns it for every body that carries no application error (a body that does
not decode, or decodes to code 0 and an empty message), without touching a file.
A body that decodes to a non-zero code or a non-empty message makes `Get` return
the application error instead. -/
theorem C21_status_error (rt : Runtime) (c : Client) (w : World) (url filename : String)
    (opts : List (Option OptionFn)) (qr qg : Values) (status : Int) (body : Bytes)
    (hfile : filename ≠ "") (hurl : url ≠ "") (hreq : c.NewRequest = none)
    (hraw : setOptions (baseQuery c url) opts = (qr, none))
    (hget : setOptions (baseQuery c url)
      (opts ++ [some (OptionErrorsOutputFormat rt.strings "JSON"),
        some (OptionImageOutputFormat rt.strings "image")]) = (qg, none))
    (hdor : c.Do qr.Encode = .done status body) (hdog : c.Do qg.Encode = .done status body)
    (hst : ¬ (200 ≤ status ∧ status ≤ 299)) :
    GetRaw c w url opts = ({ w with sent := w.sent ++ [qr] },
      .failed (some status) body
        (.other ("API failed with status code: " ++ Sprintf_d status))) ∧
    (NoPayloadError rt body →
      Get rt c w url filename opts = ({ w with sent := w.sent ++ [qg] },
        some (.other ("API failed with status code: " ++ Sprintf_d status)))) ∧
    (∀ code m, rt.Decode body = .ok ⟨code, m⟩ → (m ≠ "" ∨ code ≠ 0) →
      Get rt c w url filename opts
        = ({ w with sent := w.sent ++ [qg] }, some (.api ⟨code, m⟩))) := by
  have hg := Get_of_done rt c w url filename opts qg status body hfile hurl hreq hget hdog
  refine ⟨?_, ?_, ?_⟩
  · rw [GetRaw_of_done c w url opts qr status body hurl hreq hraw hdor,
      checkResponse_of_not_2xx status hst]
  · intro hno
    rw [hg]
    cases hd : rt.Decode body with
    | error e => simp only [parse, hd]; exact store_of_not_2xx _ _ _ _ _ hst
    | ok r =>
      obtain ⟨h0, hm⟩ := hno r hd
      simp only [parse, hd]
      rw [if_neg (by simp [h0, hm])]
      exact store_of_not_2xx _ _ _ _ _ hst
  · intro code m hd hc
    rw [hg]
    simp only [parse, hd]
    rw [if_pos hc]

/-- C21, amended, at status 500 with the XML body of the tests, which does not
decode: both modes return the status error. -/
theorem C21_status_error_witness :
    (GetRaw (replying "K" 500 [60, 62]) ⟨[], []⟩ "u" []).2.err.map GoError.Error
      = some "API failed with status code: 500" ∧
    (Get (plainRuntime (.error "invalid character")) (replying "K" 500 [60, 62]) ⟨[], []⟩
        "u" "f" []).2.map GoError.Error
      = some "API failed with status code: 500" :=
  ⟨(congrArg (fun r => r.2.err.map GoError.Error)
      (C21_status_error (plainRuntime (.error "invalid character")) (replying "K" 500 [60, 62])
        ⟨[], []⟩ "u" "f" [] _ _ 500 [60, 62] (by decide) (by decide) rfl
        (by decide :
          setOptions (baseQuery (replying "K" 500 [60, 62]) "u") []
            = ([("apiKey", ["K"]), ("url", ["u"])], none))
        (by decide :
          setOptions (baseQuery (replying "K" 500 [60, 62]) "u")
            ([] ++ [some (OptionErrorsOutputFormat asciiStrings "JSON"),
              some (OptionImageOutputFormat asciiStrings "image")])
            = ([("apiKey", ["K"]), ("url", ["u"]), ("errorsOutputFormat", ["JSON"]),
              ("imageOutputFormat", ["image"])], none))
        rfl rfl (by decide)).1).trans (by decide),
    by decide⟩

theorem request_of_failed (c : Client) (w : World) (url : String)
    (opts : List (Option OptionFn)) (q : Values) (resp : Option Int) (b : Bytes)
    (err : String) (hurl : url ≠ "") (hreq : c.NewRequest = none)
    (hopts : setOptions (baseQuery c url) opts = (q, none))
    (hdo : c.Do q.Encode = .failed resp b err) :
    request c w url opts = ({ w with sent := w.sent ++ [q] }, .failed resp b (.other err)) := by
  have hr := request_of_ok c w url opts q hurl hreq hopts
  rw [hdo] at hr
  exact hr

/-- C22: a transport failure takes priority over everything that follows it. When
the transport returns an error, `GetRaw` and `Get` return exactly that error,
whatever the status of the response (if there is one) and whatever bytes were
buffered; `Get` does not consult the decoder (the result is the same for every
runtime) and touches no file. -/
theorem C22_transport_error_first (rt : Runtime) (c : Client) (w : World)
    (url filename : String) (opts : List (Option OptionFn)) (qr qg : Values)
    (respr respg : Option Int) (br bg : Bytes) (er eg : String)
    (hfile : filename ≠ "") (hurl : url ≠ "") (hreq : c.NewRequest = none)
    (hraw : setOptions (baseQuery c url) opts = (qr, none))
    (hget : setOptions (baseQuery c url)
      (opts ++ [some (OptionErrorsOutputFormat rt.strings "JSON"),
        some (OptionImageOutputFormat rt.strings "image")]) = (qg, none))
    (hdor : c.Do qr.Encode = .failed respr br er)
    (hdog : c.Do qg.Encode = .failed respg bg eg) :
    GetRaw c w url opts
      = ({ w with sent := w.sent ++ [qr] }, .failed respr br (.other er)) ∧
    Get rt c w url filename opts = ({ w with sent := w.sent ++ [qg] }, some (.other eg)) ∧
    (Get rt c w url filename opts).1.files = w.files ∧
    (∀ rt2 : Runtime, rt2.strings = rt.strings →
      Get rt2 c w url filename opts = Get rt c w url filename opts) := by
  have hr := request_of_failed c w url opts qr respr br er hurl hreq hraw hdor
  have hgen : ∀ rt2 : Runtime, rt2.strings = rt.strings →
      Get rt2 c w url filename opts
        = ({ w with sent := w.sent ++ [qg] }, some (.other eg)) := by
    intro rt2 hs
    have h2 := request_of_failed c w url _ qg respg bg eg hurl hreq hget hdog
    simp only [Get, hfile, if_false, hs, h2]
  have hg := hgen rt rfl
  refine ⟨by simp only [GetRaw, hr], hg, by rw [hg], fun rt2 hs => ?_⟩
  rw [hgen rt2 hs, hg]

/-- C22 at a truncated body: status 200, some bytes buffered, and the transport
error of the tests; the decoder would read the bytes as an error payload. -/
theorem C22_transport_error_first_witness :
    (GetRaw (failing "K" 200 [123, 125] "cannot read response: unexpected EOF") ⟨[], []⟩
        "u" []).2.err.map GoError.Error
      = some "cannot read response: unexpected EOF" ∧
    Get (plainRuntime (.ok ⟨499, "Test error message."⟩))
        (failing "K" 200 [123, 125] "cannot read response: unexpected EOF") ⟨[], []⟩ "u" "f" []
      = (⟨[[("apiKey", ["K"]), ("url", ["u"]), ("errorsOutputFormat", ["JSON"]),
          ("imageOutputFormat", ["image"])]], []⟩,
        some (.other "cannot read response: unexpected EOF")) :=
  ⟨by decide,
    (C22_transport_error_first (plainRuntime (.ok ⟨499, "Test error message."⟩))
      (failing "K" 200 [123, 125] "cannot read response: unexpected EOF") ⟨[], []⟩ "u" "f" []
      [("apiKey", ["K"]), ("url", ["u"])]
      [("apiKey", ["K"]), ("url", ["u"]), ("errorsOutputFormat", ["JSON"]),
        ("imageOutputFormat", ["image"])]
      (some 200) (some 200) [123, 125] [123, 125] _ _
      (by decide) (by decide) rfl (by decide) (by decide) rfl rfl).2.1⟩

theorem store_of_2xx (rt : Runtime) (w : World) (filename : String) (status : Int)
    (body : Bytes) (h : 200 ≤ status ∧ status ≤ 299) :
    store rt w filename status body =
      match rt.Create filename with
      | some err => (w, some (.other err))
      | none =>
        match rt.Write filename body with
        | some (n, err) =>
          ({ w with files := setFile w.files filename (body.take n) }, some (.other err))
        | none => ({ w with files := setFile w.files filename body }, none) := by
  have hch : checkResponse status = none := by simp [checkResponse, h]
  simp only [store, hch]

/-- C23: a body that does not parse as the error payload is not an error. When
the transport answers without error and with a 2xx status and `parse` fails on the
body, `Get` goes on to create and write the file: it returns `nil` with the file
content equal to the full body when the file can be created and written, and
otherwise the error of `os.Create` or of `f.Write`; the error of `parse` plays no
part in the result. -/
theorem C23_unparsable_body_is_success (rt : Runtime) (c : Client) (w : World)
    (url filename : String) (opts : List (Option OptionFn)) (q : Values) (status : Int)
    (body : Bytes) (e : String)
    (hfile : filename ≠ "") (hurl : url ≠ "") (hreq : c.NewRequest = none)
    (hopts : setOptions (baseQuery c url)
      (opts ++ [some (OptionErrorsOutputFormat rt.strings "JSON"),
        some (OptionImageOutputFormat rt.strings "image")]) = (q, none))
    (hdo : c.Do q.Encode = .done status body) (h2xx : 200 ≤ status ∧ status ≤ 299)
    (hparse : rt.Decode body = .error e) :
    parse rt body = .error (.other ("cannot parse response: " ++ e)) ∧
    (rt.Create filename = none → rt.Write filename body = none →
      (Get rt c w url filename opts).2 = none ∧
      fileContent (Get rt c w url filename opts).1.files filename = some body) ∧
    ((Get rt c w url filename opts).2 = none ∨
      (∃ t, rt.Create filename = some t ∧
        (Get rt c w url filename opts).2 = some (.other t)) ∨
      (∃ n t, rt.Write filename body = some (n, t) ∧
        (Get rt c w url filename opts).2 = some (.other t))) := by
  have hg := Get_of_done rt c w url filename opts q status body hfile hurl hreq hopts hdo
  have hp : parse rt body = .error (.other ("cannot parse response: " ++ e)) := by
    simp [parse, hparse]
  rw [hp] at hg
  simp only [] at hg
  rw [store_of_2xx rt _ filename status body h2xx] at hg
  refine ⟨hp, ?_, ?_⟩
  · intro hcr hwr
    rw [hg]
    simp [hcr, hwr, fileContent_setFile]
  · rw [hg]
    cases hcr : rt.Create filename with
    | some t => exact Or.inr (Or.inl ⟨t, rfl, rfl⟩)
    | none =>
      cases hwr : rt.Write filename body with
      | some p => exact Or.inr (Or.inr ⟨p.1, p.2, rfl, rfl⟩)
      | none => exact Or.inl rfl

/-- C23 at status 200 with a body that the decoder rejects: `Get` returns `nil` and
the file holds the body. -/
theorem C23_unparsable_body_is_success_witness :
    (Get (plainRuntime (.error "invalid character")) (replying "K" 200 [60, 63, 120])
        ⟨[], []⟩ "u" "f" []).2 = none ∧
    fileContent (Get (plainRuntime (.error "invalid character"))
        (replying "K" 200 [60, 63, 120]) ⟨[], []⟩ "u" "f" []).1.files "f"
      = some [60, 63, 120] :=
  (C23_unparsable_body_is_success (plainRuntime (.error "invalid character"))
    (replying "K" 200 [60, 63, 120]) ⟨[], []⟩ "u" "f" []
    [("apiKey", ["K"]), ("url", ["u"]), ("errorsOutputFormat", ["JSON"]),
      ("imageOutputFormat", ["image"])] 200 [60, 63, 120] "invalid character"
    (by decide) (by decide) rfl (by decide) rfl (by decide) rfl).2.1 rfl rfl

/-- C25: in `Get` the payload check comes before the status check. When the
transport answers without error, with a non-2xx status and a body that decodes to
an error payload with a non-zero code or a non-empty message, `Get` returns the
`ErrorMessage` built from the body, not the status error, and `GetRaw` on the same
exchange returns the status error. -/
theorem C25_payload_before_status (rt : Runtime) (c : Client) (w : World)
    (url filename : String) (opts : List (Option OptionFn)) (qr qg : Values)
    (status code : Int) (m : String) (body : Bytes)
    (hfile : filename ≠ "") (hurl : url ≠ "") (hreq : c.NewRequest = none)
    (hraw : setOptions (baseQuery c url) opts = (qr, none))
    (hget : setOptions (baseQuery c url)
      (opts ++ [some (OptionErrorsOutputFormat rt.strings "JSON"),
        some (OptionImageOutputFormat rt.strings "image")]) = (qg, none))
    (hdor : c.Do qr.Encode = .done status body) (hdog : c.Do qg.Encode = .done status body)
    (hst : ¬ (200 ≤ status ∧ status ≤ 299))
    (hparse : rt.Decode body = .ok ⟨code, m⟩) (hc : code ≠ 0 ∨ m ≠ "") :
    Get rt c w url filename opts
      = ({ w with sent := w.sent ++ [qg] }, some (.api ⟨code, m⟩)) ∧
    (Get rt c w url filename opts).2.map GoError.Error
      = some ("API error: [" ++ Sprintf_d code ++ "] " ++ m) ∧
    (Get rt c w url filename opts).2 ≠ checkResponse status ∧
    (GetRaw c w url opts).2.err
      = some (.other ("API failed with status code: " ++ Sprintf_d status)) := by
  have hg0 := Get_of_done rt c w url filename opts qg status body hfile hurl hreq hget hdog
  have hg : Get rt c w url filename opts
      = ({ w with sent := w.sent ++ [qg] }, some (.api ⟨code, m⟩)) := by
    rw [hg0]
    simp only [parse, hparse]
    rw [if_pos hc.symm]
  refine ⟨hg, by rw [hg]; rfl, ?_, ?_⟩
  · rw [hg, checkResponse_of_not_2xx status hst]
    simp
  · rw [GetRaw_of_done c w url opts qr status body hurl hreq hraw hdor,
      checkResponse_of_not_2xx status hst]
    rfl

/-- C25 at the exchange of the tests: status 499 and the payload with code 499
and message `Test error message.`. -/
theorem C25_payload_before_status_witness :
    (Get (plainRuntime (.ok ⟨499, "Test error message."⟩)) (replying "K" 499 [123, 125])
        ⟨[], []⟩ "u" "f" []).2.map GoError.Error
      = some "API error: [499] Test error message." ∧
    (GetRaw (replying "K" 499 [123, 125]) ⟨[], []⟩ "u" []).2.err.map GoError.Error
      = some "API failed with status code: 499" :=
  ⟨((C25_payload_before_status (plainRuntime (.ok ⟨499, "Test error message."⟩))
      (replying "K" 499 [123, 125]) ⟨[], []⟩ "u" "f" []
      [("apiKey", ["K"]), ("url", ["u"])]
      [("apiKey", ["K"]), ("url", ["u"]), ("errorsOutputFormat", ["JSON"]),
        ("imageOutputFormat", ["image"])]
      499 499 "Test error message." [123, 125]
      (by decide) (by decide) rfl (by decide) (by decide) rfl rfl (by decide) rfl
      (Or.inl (by decide))).2.1).trans (by decide),
    by decide⟩

/-! ## The bounds of `OptionQuality` -/

/-- C24, as stated, fails: `OptionQuality(40)` succeeds although 40 is not
strictly greater than 40 (and `OptionQuality(99)` succeeds likewise). -/
theorem C24_counterexample :
    ¬ (∀ (q : Int) (v : Values), (OptionQuality q v).2 = none ↔ 40 < q ∧ q < 99) := by
  intro h
  have h1 := (h 40 []).1 (by decide)
  exact absurd h1.1 (by decide)

/-- C24, amended: the bounds of `OptionQuality` are inclusive. `OptionQuality(q)`
succeeds exactly when `40 <= q <= 99`, so `OptionQuality(40)` and
`OptionQuality(99)` are accepted and set `quality`, and every other value, 39 and
100 among them, is rejected with `ArgError{"quality", "must be between 40 and 99"}`;
the `40 < quality < 99` of the doc comment is not meant strictly. -/
theorem C24_quality_inclusive (q : Int) (v : Values) :
    ((OptionQuality q v).2 = none ↔ 40 ≤ q ∧ q ≤ 99) ∧
    (¬ (40 ≤ q ∧ q ≤ 99) →
      (OptionQuality q v).2 = some (.arg ⟨"quality", "must be between 40 and 99"⟩)) ∧
    (OptionQuality 40 v).2 = none ∧ IsSetOf (OptionQuality 40 v).1 v "quality" "40" ∧
    (OptionQuality 99 v).2 = none ∧ IsSetOf (OptionQuality 99 v).1 v "quality" "99" ∧
    (OptionQuality 40 []).1.Encode = "quality=40" ∧
    (OptionQuality 99 []).1.Encode = "quality=99" ∧
    (OptionQuality 39 v).2 ≠ none ∧ (OptionQuality 100 v).2 ≠ none := by
  have hspec := intOption_spec 40 99 "quality" "must be between 40 and 99"
  have h40 := hspec 40 v
  have h99 := hspec 99 v
  refine ⟨(hspec q v).1, ?_, h40.1.2 (by decide), ?_, h99.1.2 (by decide), ?_,
    by decide, by decide, ?_, ?_⟩
  · intro h
    exact congrArg Prod.snd (intOption_fail 40 99 "quality" _ q v h)
  · have h := h40.2 (by decide)
    have e : Sprintf_d 40 = "40" := by decide
    rw [e] at h; exact h
  · have h := h99.2 (by decide)
    have e : Sprintf_d 99 = "99" := by decide
    rw [e] at h; exact h
  · intro h; exact absurd ((hspec 39 v).1.1 h) (by decide)
  · intro h; exact absurd ((hspec 100 v).1.1 h) (by decide)

/-! ## The order of width and thumb width -/

theorem setOptions_snd_of_error (v : Values) (opts : List (Option OptionFn)) (e : GoError)
    (h : (applyOpts opts v).2 = some e) : (setOptions v opts).2 = some e := by
  have h2 : applyOpts opts v = ((applyOpts opts v).1, some e) := Prod.ext rfl h
  rw [setOptions_of_error v opts _ e h2]

/-- C26: the comparison of the two widths does not depend on the order of the two
options. For all integers `w` and `t` and every set `v`, `setOptions` with
`OptionThumbWidth(t), OptionWidth(w)` and with `OptionWidth(w), OptionThumbWidth(t)`
agree on whether the comparison fails and on whether an error is returned; when
both succeed, every key has the same values in the two resulting sets; and for
accepted `w` and `t` the thumb width applied first is compared with `w`, not with
the default 800: the error is returned exactly when `t > w`. -/
theorem C26_cross_check_order (v : Values) (w t : Int) :
    (crossCheckFails v [some (OptionThumbWidth t), some (OptionWidth w)] ↔
      crossCheckFails v [some (OptionWidth w), some (OptionThumbWidth t)]) ∧
    ((setOptions v [some (OptionThumbWidth t), some (OptionWidth w)]).2 = none ↔
      (setOptions v [some (OptionWidth w), some (OptionThumbWidth t)]).2 = none) ∧
    ((setOptions v [some (OptionThumbWidth t), some (OptionWidth w)]).2 = none →
      ∀ k, (setOptions v [some (OptionThumbWidth t), some (OptionWidth w)]).1.lookup k
        = (setOptions v [some (OptionWidth w), some (OptionThumbWidth t)]).1.lookup k) ∧
    (100 ≤ w ∧ w ≤ 3000 → 50 ≤ t ∧ t ≤ 3000 →
      ((setOptions v [some (OptionThumbWidth t), some (OptionWidth w)]).2 ≠ none ↔ t > w)) := by
  by_cases hw : w < MinSize ∨ w > MaxSize
  · -- the width is rejected in both orders
    have h1 : ∃ e, (applyOpts [some (OptionThumbWidth t), some (OptionWidth w)] v).2
        = some e := by
      by_cases ht : t < MinThumbWidth ∨ t > MaxSize
      · exact ⟨.arg ⟨"thumbWidth", "must be between 50 and width param value"⟩,
          by simp [applyOpts, OptionThumbWidth, ht, fail]⟩
      · exact ⟨.arg ⟨"width", "must be between 100 and 3000"⟩,
          by simp [applyOpts, OptionThumbWidth, OptionWidth, ht, hw, fail]⟩
    have h2 : ∃ e, (applyOpts [some (OptionWidth w), some (OptionThumbWidth t)] v).2
        = some e :=
      ⟨.arg ⟨"width", "must be between 100 and 3000"⟩,
        by simp [applyOpts, OptionWidth, hw, fail]⟩
    obtain ⟨e1, h1⟩ := h1
    obtain ⟨e2, h2⟩ := h2
    have s1 := setOptions_snd_of_error v _ e1 h1
    have s2 := setOptions_snd_of_error v _ e2 h2
    refine ⟨?_, ?_, ?_, ?_⟩
    · simp [crossCheckFails, h1, h2]
    · simp [s1, s2]
    · intro h; rw [s1] at h; exact absurd h (by simp)
    · intro hwr _
      simp only [MinSize, MaxSize] at hw
      omega
  · by_cases ht : t < MinThumbWidth ∨ t > MaxSize
    · -- the thumb width is rejected in both orders
      have h1 : (applyOpts [some (OptionThumbWidth t), some (OptionWidth w)] v).2
          = some (.arg ⟨"thumbWidth", "must be between 50 and width param value"⟩) := by
        simp [applyOpts, OptionThumbWidth, ht, fail]
      have h2 : (applyOpts [some (OptionWidth w), some (OptionThumbWidth t)] v).2
          = some (.arg ⟨"thumbWidth", "must be between 50 and width param value"⟩) := by
        simp [applyOpts, OptionThumbWidth, OptionWidth, ht, hw, fail]
      have s1 := setOptions_snd_of_error v _ _ h1
      have s2 := setOptions_snd_of_error v _ _ h2
      refine ⟨?_, ?_, ?_, ?_⟩
      · simp [crossCheckFails, h1, h2]
      · simp [s1, s2]
      · intro h; rw [s1] at h; exact absurd h (by simp)
      · intro _ htr
        simp only [MinThumbWidth, MaxSize] at ht
        omega
    · -- both are accepted: the two maps hold the same two renderings
      have hwr : 100 ≤ w ∧ w ≤ 3000 := by simp only [MinSize, MaxSize] at hw; omega
      have htr : 50 ≤ t ∧ t ≤ 3000 := by simp only [MinThumbWidth, MaxSize] at ht; omega
      have l1 : applyOpts [some (OptionThumbWidth t), some (OptionWidth w)] v
          = ((v.Set "thumbWidth" (Sprintf_d t)).Set "width" (Sprintf_d w), none) := by
        simp [applyOpts, OptionWidth, OptionThumbWidth, hw, ht]
      have l2 : applyOpts [some (OptionWidth w), some (OptionThumbWidth t)] v
          = ((v.Set "width" (Sprintf_d w)).Set "thumbWidth" (Sprintf_d t), none) := by
        simp [applyOpts, OptionWidth, OptionThumbWidth, hw, ht]
      have s1 := setOptions_of_ok v _ _ l1
      have s2 := setOptions_of_ok v _ _ l2
      have g1w : ((v.Set "thumbWidth" (Sprintf_d t)).Set "width" (Sprintf_d w)).Get "width"
          = Sprintf_d w := Get_of_lookup _ _ _ (by rw [lookup_Set]; simp)
      have g1t : ((v.Set "thumbWidth" (Sprintf_d t)).Set "width" (Sprintf_d w)).Get
          "thumbWidth" = Sprintf_d t :=
        Get_of_lookup _ _ _ (by rw [lookup_Set, lookup_Set]; simp)
      have g2w : ((v.Set "width" (Sprintf_d w)).Set "thumbWidth" (Sprintf_d t)).Get "width"
          = Sprintf_d w := Get_of_lookup _ _ _ (by rw [lookup_Set, lookup_Set]; simp)
      have g2t : ((v.Set "width" (Sprintf_d w)).Set "thumbWidth" (Sprintf_d t)).Get
          "thumbWidth" = Sprintf_d t := Get_of_lookup _ _ _ (by rw [lookup_Set]; simp)
      rw [g1w, g1t, atoiOrZero_Sprintf_d w (by omega) hwr.2,
        atoiOrZero_Sprintf_d t (by omega) htr.2] at s1
      rw [g2w, g2t, atoiOrZero_Sprintf_d w (by omega) hwr.2,
        atoiOrZero_Sprintf_d t (by omega) htr.2] at s2
      have hwne : w ≠ 0 := by omega
      by_cases hlt : t > w
      · have c1 : (w ≠ 0 ∧ t > w) ∨ (w = 0 ∧ t > DefaultWidth) := Or.inl ⟨hwne, hlt⟩
        rw [if_pos c1] at s1 s2
        refine ⟨?_, ?_, ?_, ?_⟩
        · simp [crossCheckFails, l1, l2, s1, s2, fail]
        · simp [s1, s2, fail]
        · intro h; rw [s1] at h; simp [fail] at h
        · intro _ _; simp [s1, fail, hlt]
      · have c1 : ¬ ((w ≠ 0 ∧ t > w) ∨ (w = 0 ∧ t > DefaultWidth)) := by
          rintro (⟨_, h⟩ | ⟨h, _⟩)
          · exact hlt h
          · exact hwne h
        rw [if_neg c1] at s1 s2
        refine ⟨?_, ?_, ?_, ?_⟩
        · simp [crossCheckFails, s1, s2]
        · simp [s1, s2]
        · intro _ k
          rw [s1, s2]
          simp only [lookup_Set]
          by_cases hk1 : k = "width"
          · subst hk1; simp
          · by_cases hk2 : k = "thumbWidth"
            · subst hk2; simp
            · simp [hk1, hk2]
        · intro _ _; simp [s1, hlt]

/-- C26 at width 1000 and thumb width 900, thumb width first: accepted (900 is
above the default width of 800), with the same encoded query in both orders; and
at thumb width 1001: rejected in both orders. -/
theorem C26_cross_check_order_witness :
    (setOptions [] [some (OptionThumbWidth 900), some (OptionWidth 1000)]).2 = none ∧
    (setOptions [] [some (OptionThumbWidth 900), some (OptionWidth 1000)]).1.Encode
      = (setOptions [] [some (OptionWidth 1000), some (OptionThumbWidth 900)]).1.Encode ∧
    (setOptions [] [some (OptionThumbWidth 1001), some (OptionWidth 1000)]).2 ≠ none ∧
    (setOptions [] [some (OptionWidth 1000), some (OptionThumbWidth 1001)]).2 ≠ none :=
  ⟨by decide, by decide,
    ((C26_cross_check_order [] 1000 1001).2.2.2 (by decide) (by decide)).2 (by decide),
    by decide⟩

/-! ## The order of the cookies -/

/-- C27: the code on the two-entry map of the test `Cookies2`, when the map
iteration yields `name2` first (`range` may yield the entries in any order):
`toString` gives `name2=value2;name1=value1`, and `OptionCookies` on the empty set
encodes to `cookies=name2%3Dvalue2%3Bname1%3Dvalue1`, not to the string that the
test expects. -/
theorem C27_cookie_order_follows_iteration :
    Cookies.range [("name1", "value1"), ("name2", "value2")]
      [("name2", "value2"), ("name1", "value1")] ∧
    Cookies.toString [("name2", "value2"), ("name1", "value1")]
      = "name2=value2;name1=value1" ∧
    (OptionCookies [("name2", "value2"), ("name1", "value1")] []).1.Encode
      = "cookies=name2%3Dvalue2%3Bname1%3Dvalue1" ∧
    (OptionCookies [("name2", "value2"), ("name1", "value1")] []).1.Encode
      ≠ "cookies=name1%3Dvalue1%3Bname2%3Dvalue2" ∧
    (OptionCookies [("name1", "value1"), ("name2", "value2")] []).1.Encode
      = "cookies=name1%3Dvalue1%3Bname2%3Dvalue2" :=
  ⟨List.Perm.swap _ _ _, by decide, by decide, by decide, by decide⟩

/-! ## The filesystem -/

theorem request_files (c : Client) (w : World) (url : String)
    (opts : List (Option OptionFn)) : (request c w url opts).1.files = w.files := by
  unfold request
  repeat' split
  all_goals rfl

/-- What is known when `request` has returned a response and no error. -/
theorem request_ok_inv (c : Client) (w w1 : World) (url : String)
    (opts : List (Option OptionFn)) (status : Int) (body : Bytes)
    (h : request c w url opts = (w1, .ok status body)) :
    url ≠ "" ∧ c.NewRequest = none ∧
      ∃ q, setOptions (baseQuery c url) opts = (q, none) ∧
        c.Do q.Encode = .done status body := by
  by_cases hurl : url = ""
  · simp [request, hurl] at h
  · cases hreq : c.NewRequest with
    | some e => simp [request, hurl, newRequest, hreq] at h
    | none =>
      rcases hs : setOptions (baseQuery c url) opts with ⟨q, _ | e⟩
      · refine ⟨hurl, rfl, q, rfl, ?_⟩
        rw [request_of_ok c w url opts q hurl hreq hs] at h
        cases hdo : c.Do q.Encode with
        | failed resp b err => rw [hdo] at h; simp at h
        | done s b =>
          rw [hdo] at h
          simp only [Prod.mk.injEq, Result.ok.injEq] at h
          rw [h.2.1, h.2.2]
      · unfold baseQuery at hs
        simp [request, hurl, newRequest, hreq, hs] at h

/-- C28: `Get` touches the filesystem only after every check has passed. Either
the files are as before the call, or: the filename and the URL are not empty, the
request was built and answered by the transport without error and with a 2xx
status, the body carries no application error and `os.Create` succeeded; then the
file holds exactly the response body and `Get` returns `nil`, or `f.Write` failed
after `n` bytes, the file holds the first `n` bytes of the body and `Get` returns
the error of `f.Write`. In particular the files are unchanged whenever `Get`
returns an `ArgError` or an `ErrorMessage`, and whenever `request` returns an
error (a rejected argument, a failing option, a transport error). -/
theorem C28_filesystem_frame (rt : Runtime) (c : Client) (w : World)
    (url filename : String) (opts : List (Option OptionFn)) :
    ((Get rt c w url filename opts).1.files = w.files ∨
      ∃ q status body, filename ≠ "" ∧ url ≠ "" ∧ c.NewRequest = none ∧
        setOptions (baseQuery c url)
          (opts ++ [some (OptionErrorsOutputFormat rt.strings "JSON"),
            some (OptionImageOutputFormat rt.strings "image")]) = (q, none) ∧
        c.Do q.Encode = .done status body ∧ (200 ≤ status ∧ status ≤ 299) ∧
        NoPayloadError rt body ∧ rt.Create filename = none ∧
        ((rt.Write filename body = none ∧ (Get rt c w url filename opts).2 = none ∧
            (Get rt c w url filename opts).1.files = setFile w.files filename body) ∨
          ∃ n t, rt.Write filename body = some (n, t) ∧
            (Get rt c w url filename opts).2 = some (.other t) ∧
            (Get rt c w url filename opts).1.files
              = setFile w.files filename (body.take n))) ∧
    (∀ a, (Get rt c w url filename opts).2 = some (.arg a) →
      (Get rt c w url filename opts).1.files = w.files) ∧
    (∀ e, (Get rt c w url filename opts).2 = some (.api e) →
      (Get rt c w url filename opts).1.files = w.files) ∧
    ((request c w url (opts ++ [some (OptionErrorsOutputFormat rt.strings "JSON"),
        some (OptionImageOutputFormat rt.strings "image")])).2.err ≠ none →
      (Get rt c w url filename opts).1.files = w.files) := by
  have main : (Get rt c w url filename opts).1.files = w.files ∨
      ∃ q status body, filename ≠ "" ∧ url ≠ "" ∧ c.NewRequest = none ∧
        setOptions (baseQuery c url)
          (opts ++ [some (OptionErrorsOutputFormat rt.strings "JSON"),
            some (OptionImageOutputFormat rt.strings "image")]) = (q, none) ∧
        c.Do q.Encode = .done status body ∧ (200 ≤ status ∧ status ≤ 299) ∧
        NoPayloadError rt body ∧ rt.Create filename = none ∧
        ((rt.Write filename body = none ∧ (Get rt c w url filename opts).2 = none ∧
            (Get rt c w url filename opts).1.files = setFile w.files filename body) ∨
          ∃ n t, rt.Write filename body = some (n, t) ∧
            (Get rt c w url filename opts).2 = some (.other t) ∧
            (Get rt c w url filename opts).1.files
              = setFile w.files filename (body.take n)) := by
    by_cases hfile : filename = ""
    · left; simp [Get, hfile]
    · have hrf := request_files c w url
        (opts ++ [some (OptionErrorsOutputFormat rt.strings "JSON"),
          some (OptionImageOutputFormat rt.strings "image")])
      rcases hr : request c w url
        (opts ++ [some (OptionErrorsOutputFormat rt.strings "JSON"),
          some (OptionImageOutputFormat rt.strings "image")]) with ⟨w1, r⟩
      rw [hr] at hrf
      simp only [] at hrf
      cases r with
      | invalid err => left; simp only [Get, hfile, if_false, hr]; exact hrf
      | failed resp b err => left; simp only [Get, hfile, if_false, hr]; exact hrf
      | ok status body =>
        obtain ⟨hurl, hreq, q, hopts, hdo⟩ := request_ok_inv c w w1 url _ status body hr
        have hg : Get rt c w url filename opts =
            match parse rt body with
            | .ok r =>
              if r.ErrorMessage.Message ≠ "" ∨ r.ErrorMessage.Code ≠ 0
              then (w1, some (.api ⟨r.ErrorMessage.Code, r.ErrorMessage.Message⟩))
              else store rt w1 filename status body
            | .error _ => store rt w1 filename status body := by
          simp only [Get, hfile, if_false, hr]
        -- the end of `Get`, once the payload check has passed
        have tail : NoPayloadError rt body →
            Get rt c w url filename opts = store rt w1 filename status body →
            (Get rt c w url filename opts).1.files = w.files ∨
            ∃ q status body, filename ≠ "" ∧ url ≠ "" ∧ c.NewRequest = none ∧
              setOptions (baseQuery c url)
                (opts ++ [some (OptionErrorsOutputFormat rt.strings "JSON"),
                  some (OptionImageOutputFormat rt.strings "image")]) = (q, none) ∧
              c.Do q.Encode = .done status body ∧ (200 ≤ status ∧ status ≤ 299) ∧
              NoPayloadError rt body ∧ rt.Create filename = none ∧
              ((rt.Write filename body = none ∧ (Get rt c w url filename opts).2 = none ∧
                  (Get rt c w url filename opts).1.files = setFile w.files filename body) ∨
                ∃ n t, rt.Write filename body = some (n, t) ∧
                  (Get rt c w url filename opts).2 = some (.other t) ∧
                  (Get rt c w url filename opts).1.files
                    = setFile w.files filename (body.take n)) := by
          intro hno hst
          by_cases h2xx : 200 ≤ status ∧ status ≤ 299
          · rw [store_of_2xx rt w1 filename status body h2xx] at hst
            cases hcr : rt.Create filename with
            | some t => left; rw [hst, hcr]; exact hrf
            | none =>
              right
              refine ⟨q, status, body, hfile, hurl, hreq, hopts, hdo, h2xx, hno, rfl, ?_⟩
              cases hwr : rt.Write filename body with
              | none =>
                left
                rw [hst, hcr, hwr]
                exact ⟨rfl, rfl, by simp only [hrf]⟩
              | some p =>
                right
                refine ⟨p.1, p.2, rfl, ?_, ?_⟩
                · rw [hst, hcr, hwr]
                · rw [hst, hcr, hwr]; simp only [hrf]
          · left
            rw [hst, store_of_not_2xx rt w1 filename status body h2xx]
            exact hrf
        cases hd : rt.Decode body with
        | error e =>
          have hno : NoPayloadError rt body := by
            intro r hr2; rw [hd] at hr2; exact absurd hr2 (by simp)
          exact tail hno (by rw [hg]; simp only [parse, hd])
        | ok r =>
          by_cases hc : r.Message ≠ "" ∨ r.Code ≠ 0
          · left
            rw [hg]
            simp only [parse, hd]
            rw [if_pos hc]
            exact hrf
          · have hno : NoPayloadError rt body := by
              intro r2 hr2
              rw [hd] at hr2
              have : r = r2 := by injection hr2
              subst this
              constructor
              · by_contra h0; exact hc (Or.inr h0)
              · by_contra h0; exact hc (Or.inl h0)
            exact tail hno (by rw [hg]; simp only [parse, hd]; rw [if_neg hc])
  refine ⟨main, ?_, ?_, ?_⟩
  · intro a ha
    rcases main with h | ⟨_, _, _, _, _, _, _, _, _, _, _, h⟩
    · exact h
    · rcases h with ⟨_, h2, _⟩ | ⟨_, _, _, h2, _⟩
      · rw [h2] at ha; exact absurd ha (by simp)
      · rw [h2] at ha; exact absurd ha (by simp)
  · intro e he
    rcases main with h | ⟨_, _, _, _, _, _, _, _, _, _, _, h⟩
    · exact h
    · rcases h with ⟨_, h2, _⟩ | ⟨_, _, _, h2, _⟩
      · rw [h2] at he; exact absurd he (by simp)
      · rw [h2] at he; exact absurd he (by simp)
  · intro herr
    by_cases hfile : filename = ""
    · simp [Get, hfile]
    · have hrf := request_files c w url
        (opts ++ [some (OptionErrorsOutputFormat rt.strings "JSON"),
          some (OptionImageOutputFormat rt.strings "image")])
      rcases hr : request c w url
        (opts ++ [some (OptionErrorsOutputFormat rt.strings "JSON"),
          some (OptionImageOutputFormat rt.strings "image")]) with ⟨w1, r⟩
      rw [hr] at hrf herr
      simp only [] at hrf
      cases r with
      | invalid err => simp only [Get, hfile, if_false, hr]; exact hrf
      | failed resp b err => simp only [Get, hfile, if_false, hr]; exact hrf
      | ok status body => exact absurd rfl herr

/-- C28 on a filesystem that holds the destination file with an old content: an
application error, a status error and a transport error leave the content, a
successful call replaces it by the body. -/
theorem C28_filesystem_frame_witness :
    (Get (plainRuntime (.ok ⟨499, "Test error message."⟩)) (replying "K" 200 [123, 125])
        ⟨[], [("f", [1, 2, 3])]⟩ "u" "f" []).1.files = [("f", [1, 2, 3])] ∧
    (Get (plainRuntime (.error "invalid character")) (replying "K" 500 [60, 62])
        ⟨[], [("f", [1, 2, 3])]⟩ "u" "f" []).1.files = [("f", [1, 2, 3])] ∧
    (Get (plainRuntime (.error "invalid character")) (failing "K" 200 [60] "unexpected EOF")
        ⟨[], [("f", [1, 2, 3])]⟩ "u" "f" []).1.files = [("f", [1, 2, 3])] ∧
    (Get (plainRuntime (.error "invalid character")) (replying "K" 200 [60, 62])
        ⟨[], [("f", [1, 2, 3])]⟩ "u" "f" []).1.files = [("f", [60, 62])] :=
  ⟨(C28_filesystem_frame (plainRuntime (.ok ⟨499, "Test error message."⟩))
      (replying "K" 200 [123, 125]) ⟨[], [("f", [1, 2, 3])]⟩ "u" "f" []).2.2.1
        ⟨499, "Test error message."⟩ (by decide),
    by decide, by decide, by decide⟩

/-! ## The keys of the built-in options -/

theorem builtin_key_mem (o : Builtin) : o.key ∈ optionKeys := by
  cases o <;> simp [Builtin.key, optionKeys]

/-- C29: each built-in option writes only its own key. For every built-in option,
every set `v` and every key `k` other than the key of the option, `k` has after
the call the values it had before, whether the option succeeds or fails. The key
of the option is one of the 23 option keys, none of which is `apiKey` or `url`, so
these two are never changed; and `setOptions` with built-in options (and `nil`
entries) leaves every key outside the 23 option keys as it was. -/
theorem C29_own_key_only (S : Strings) (o : Builtin) (v : Values) (k : String) :
    (k ≠ o.key → (o.option S v).1.lookup k = v.lookup k) ∧
    o.key ∈ optionKeys ∧ optionKeys.length = 23 ∧ optionKeys.Nodup ∧
    "apiKey" ∉ optionKeys ∧ "url" ∉ optionKeys ∧
    (o.option S v).1.lookup "apiKey" = v.lookup "apiKey" ∧
    (o.option S v).1.lookup "url" = v.lookup "url" ∧
    (∀ opts : List (Option OptionFn), (∀ f, some f ∈ opts → IsBuiltin f) →
      k ∉ optionKeys → (setOptions v opts).1.lookup k = v.lookup k) := by
  have hne := builtin_key_ne o
  refine ⟨builtin_frame S o v k, builtin_key_mem o, by decide, by decide, by decide,
    by decide, builtin_frame S o v "apiKey" (fun e => hne.1 e.symm),
    builtin_frame S o v "url" (fun e => hne.2 e.symm), ?_⟩
  intro opts hb hk
  rw [setOptions_fst]
  refine applyOpts_preserves (fun q => q.lookup k = v.lookup k) opts ?_ v rfl
  intro f hf u hu
  obtain ⟨S2, o2, rfl⟩ := hb f hf
  rw [builtin_frame S2 o2 u k (fun e => hk (e ▸ builtin_key_mem o2))]
  exact hu

/-- C29 at `OptionUA("x")` and at the failing `OptionQuality(0)` on a set that
holds the API key and the URL, and at `setOptions` with three built-in options. -/
theorem C29_own_key_only_witness :
    ((Builtin.UA "x").option asciiStrings [("apiKey", ["K"]), ("url", ["u"])]).1.lookup
      "apiKey" = some ["K"] ∧
    ((Builtin.Quality 0).option asciiStrings [("apiKey", ["K"]), ("url", ["u"])]).1.lookup
      "url" = some ["u"] ∧
    (setOptions [("apiKey", ["K"]), ("url", ["u"])]
      [some (OptionUA "x"), some (OptionWidth 640), some (OptionScroll true)]).1.lookup
      "apiKey" = some ["K"] :=
  ⟨((C29_own_key_only asciiStrings (.UA "x") [("apiKey", ["K"]), ("url", ["u"])]
      "apiKey").1 (by decide)).trans (by decide),
    ((C29_own_key_only asciiStrings (.Quality 0) [("apiKey", ["K"]), ("url", ["u"])]
      "url").1 (by decide)).trans (by decide),
    by decide⟩

end screenshotapi
